import Mathlib

/-!
The capture loop and the WAV header of tinycap.

A shallow embedding of `utils/tinycap.c`.  The embedding starts where the
option loop of `main` ends: the parsed option values are the input.  The PCM
library, `malloc`, `fopen`, `fwrite` and the delivery of SIGINT are an
environment (`Env`) that answers each call; the effects of the program are
recorded as a chronological list of `Event`s, one per library call.

`unsigned int` is 32 bits, `uint16_t` 16 bits; every C operation that can wrap
is written with an explicit remainder.  The loop may run for ever, so every
function that contains it takes a number of tests of `capturing` to observe
and reports `running` when the loop has not ended within them.
-/

namespace Tinycap

/-! ## Machine integers and constants -/

/-- The value of `UINT_MAX` for a 32-bit `unsigned int`. -/
def UINT_MAX : Nat := 4294967295

/-- Truncation to `unsigned int` / `uint32_t`. -/
def u32 (n : Nat) : Nat := n % 4294967296

/-- Truncation to `uint16_t`. -/
def u16 (n : Nat) : Nat := n % 65536

/-- Conversion of a C `int` to `unsigned int` (as in `frames_read = pcm_readi(...)`). -/
def int_to_u32 (x : Int) : Nat := (x % 4294967296).toNat

def ID_RIFF : Nat := 0x46464952
def ID_WAVE : Nat := 0x45564157
def ID_FMT : Nat := 0x20746d66
def ID_DATA : Nat := 0x61746164
def FORMAT_PCM : Nat := 1

def EXIT_SUCCESS : Nat := 0
def EXIT_FAILURE : Nat := 1

/-- The value of `sizeof(struct wav_header)`: five 32-bit, two 16-bit, two 32-bit,
two 16-bit and two 32-bit fields, no padding. -/
def sizeof_wav_header : Nat := 44

/-- The C `struct wav_header`; every field holds the value stored in its
fixed-width slot. -/
structure wav_header where
  riff_id : Nat
  riff_sz : Nat
  riff_fmt : Nat
  fmt_id : Nat
  fmt_sz : Nat
  audio_format : Nat
  num_channels : Nat
  sample_rate : Nat
  byte_rate : Nat
  block_align : Nat
  bits_per_sample : Nat
  data_id : Nat
  data_sz : Nat
deriving DecidableEq, Repr

/-- The sample formats `main` can select. -/
inductive pcm_format where
  | PCM_FORMAT_S16_LE
  | PCM_FORMAT_S24_LE
  | PCM_FORMAT_S32_LE
deriving DecidableEq, Repr

/-- Modelled from the spec: `pcm_format_to_bits` of the PCM library is not part of
the sources at hand; the spec calls it the "bits-per-sample lookup for a given
sample format" over the depths 16, 24 and 32.  Only the 16-bit format is
reachable, because `bits` is the constant 16 in `main`. -/
def pcm_format_to_bits : pcm_format → Nat
  | .PCM_FORMAT_S16_LE => 16
  | .PCM_FORMAT_S24_LE => 24
  | .PCM_FORMAT_S32_LE => 32

/-- Modelled from the spec: `pcm_frames_to_bytes` of the PCM library is not part
of the sources at hand; the spec calls it the "frames-to-bytes conversion": a
frame is one sample per channel, so `frames` frames take
`frames * channels * (bits / 8)` bytes, returned as `unsigned int`.  The
channel count and format are those of the configuration the device was opened
with. -/
def pcm_frames_to_bytes (channels : Nat) (format : pcm_format) (frames : Nat) : Nat :=
  u32 (frames * (channels * (pcm_format_to_bits format / 8)))

/-- The `switch (bits)` of `main`: the format for a bit depth, `none` for the
`default:` branch. -/
def format_of_bits (bits : Nat) : Option pcm_format :=
  if bits = 32 then some .PCM_FORMAT_S32_LE
  else if bits = 24 then some .PCM_FORMAT_S24_LE
  else if bits = 16 then some .PCM_FORMAT_S16_LE
  else none

/-- The local `bits` of `main`; no option changes it. -/
def bits : Nat := 16

/-! ## The header -/

/-- A header none of whose fields is assigned yet; an unassigned field is shown
as 0. -/
def blank_header : wav_header :=
  { riff_id := 0, riff_sz := 0, riff_fmt := 0, fmt_id := 0, fmt_sz := 0, audio_format := 0,
    num_channels := 0, sample_rate := 0, byte_rate := 0, block_align := 0, bits_per_sample := 0,
    data_id := 0, data_sz := 0 }

/-- The header after the assignments of lines 202-209. -/
def start_header (channels rate : Nat) : wav_header :=
  { blank_header with
    riff_id := ID_RIFF
    riff_sz := 0
    riff_fmt := ID_WAVE
    fmt_id := ID_FMT
    fmt_sz := 16
    audio_format := FORMAT_PCM
    num_channels := u16 channels
    sample_rate := u32 rate }

/-- The header as `main` has filled it in before the capture starts
(lines 202-229).  `data_sz` is not assigned yet. -/
def build_header (channels rate : Nat) (format : pcm_format) : wav_header :=
  let bits_per_sample := u16 (pcm_format_to_bits format)
  { start_header channels rate with
    bits_per_sample := bits_per_sample
    byte_rate := u32 (u32 ((bits_per_sample / 8) * channels) * rate)
    block_align := u16 (u32 (channels * (bits_per_sample / 8)))
    data_id := ID_DATA }

/-- The two assignments of lines 247-248: `data_sz` is an `unsigned int`
product, `riff_sz` the truncation of `data_sz + sizeof(header) - 8`. -/
def finish_header (h : wav_header) (frames : Nat) : wav_header :=
  let data_sz := u32 (frames * h.block_align)
  { h with data_sz := data_sz, riff_sz := u32 (data_sz + sizeof_wav_header - 8) }

/-- Little-endian bytes of a 16-bit field. -/
def le16 (n : Nat) : List Nat := [n % 256, n / 256 % 256]

/-- Little-endian bytes of a 32-bit field. -/
def le32 (n : Nat) : List Nat := [n % 256, n / 256 % 256, n / 65536 % 256, n / 16777216 % 256]

/-- The 44 bytes `fwrite(&header, sizeof(struct wav_header), 1, file)` puts out on
a little-endian machine. -/
def encode_header (h : wav_header) : List Nat :=
  le32 h.riff_id ++ le32 h.riff_sz ++ le32 h.riff_fmt ++ le32 h.fmt_id ++ le32 h.fmt_sz
    ++ le16 h.audio_format ++ le16 h.num_channels ++ le32 h.sample_rate ++ le32 h.byte_rate
    ++ le16 h.block_align ++ le16 h.bits_per_sample ++ le32 h.data_id ++ le32 h.data_sz

/-- Byte `i` of a file image, 0 past its end. -/
def byte_at (bs : List Nat) (i : Nat) : Nat := bs.getD i 0

/-- A little-endian 16-bit read at offset `off`. -/
def rd16 (bs : List Nat) (off : Nat) : Nat := byte_at bs off + 256 * byte_at bs (off + 1)

/-- A little-endian 32-bit read at offset `off`. -/
def rd32 (bs : List Nat) (off : Nat) : Nat :=
  byte_at bs off + 256 * byte_at bs (off + 1) + 65536 * byte_at bs (off + 2)
    + 16777216 * byte_at bs (off + 3)

/-- A WAV reader for the canonical 44-byte layout: the fields at their offsets. -/
def decode_header (bs : List Nat) : wav_header :=
  { riff_id := rd32 bs 0
    riff_sz := rd32 bs 4
    riff_fmt := rd32 bs 8
    fmt_id := rd32 bs 12
    fmt_sz := rd32 bs 16
    audio_format := rd16 bs 20
    num_channels := rd16 bs 22
    sample_rate := rd32 bs 24
    byte_rate := rd32 bs 28
    block_align := rd16 bs 32
    bits_per_sample := rd16 bs 34
    data_id := rd32 bs 36
    data_sz := rd32 bs 40 }

/-- The ASCII codes of a tag such as "RIFF". -/
def ascii (s : String) : List Nat := s.toList.map Char.toNat

/-- The four bytes of a file image from offset `off`. -/
def tag_at (bs : List Nat) (off : Nat) : List Nat :=
  [byte_at bs off, byte_at bs (off + 1), byte_at bs (off + 2), byte_at bs (off + 3)]

/-! ## Environment and effects -/

/-- The stream a `FILE *` stands for. -/
inductive Target where
  | path
  | stdout
deriving DecidableEq, Repr

/-- The diagnostics written to `stderr`. -/
inductive Diag where
  | unable_to_create_file
  | bits_not_supported (bits : Nat)
  | unable_to_open_pcm
  | unable_to_allocate (size : Nat)
  | error_capturing
deriving DecidableEq, Repr

/-- One library call of the program, with what it did. -/
inductive Event where
  | fseek (t : Target) (off : Nat)
  | fwrite_frames (t : Target) (bytes : List Nat)
  | fwrite_header (t : Target) (bytes : List Nat)
  | printf (bytes : List Nat)
  | fprintf_stderr (d : Diag)
  | signal
  | pcm_open (card device channels rate : Nat) (format : pcm_format)
      (period_size period_count : Nat)
  | pcm_close
  | malloc (size : Nat)
  | free
  | pcm_readi (count : Nat) (ret : Int)
  | fclose (t : Target)
deriving DecidableEq, Repr

/-- What the world answers.  Index `k` counts the iterations of the capture
loop from 0. -/
structure Env where
  /-- Whether `fopen(filename, "wb")` returns a stream. -/
  fopen_ok : Bool
  /-- Whether `pcm_open` returns a non-NULL handle. -/
  pcm_open_ok : Bool
  /-- The result of `pcm_is_ready`. -/
  pcm_is_ready : Bool
  /-- The result of `pcm_get_buffer_size`, in frames. -/
  buffer_size : Nat
  /-- Whether `malloc` returns a buffer. -/
  malloc_ok : Bool
  /-- The `int` that the read of iteration `k` returns. -/
  readi : Nat → Int
  /-- The byte at offset `i` from `buffer` after the read of iteration `k`. -/
  mem : Nat → Nat → Nat
  /-- How many elements the output takes from the `fwrite` of iteration `k`. -/
  fwrite_room : Nat → Nat
  /-- Whether SIGINT has been delivered since the previous test of `capturing`
  (for `k = 0`: since the handler was installed) when iteration `k` tests it. -/
  sigint : Nat → Bool

/-! ## The capture loop -/

/-- The number of the interrupt signal. -/
def SIGINT : Int := 2

/-- The handler `sigint_handler`, as a function of the signal number and the
global `capturing`: the new value of `capturing`. -/
def sigint_handler (sig : Int) (capturing : Bool) : Bool :=
  if sig = SIGINT then false else capturing

/-- The value stored in `frames_read` in iteration `k`. -/
def frames_read (env : Env) (k : Nat) : Nat := int_to_u32 (env.readi k)

/-- The test `(total_frames_read / rate) >= capture_time` of line 307. -/
def time_limit_reached (total_frames_read rate capture_time : Nat) : Bool :=
  decide (capture_time ≤ total_frames_read / rate)

/-- The return value of `fwrite(buffer, size, nmemb, file)`: the number of whole
elements written, 0 when `size` or `nmemb` is 0. -/
def fwrite_count (size nmemb room : Nat) : Nat :=
  if size = 0 ∨ nmemb = 0 then 0 else min nmemb room

/-- The first `n` bytes at `buffer` after the read of iteration `k`. -/
def buffer_bytes (env : Env) (k n : Nat) : List Nat := (List.range n).map (env.mem k)

/-- The return value of the `fwrite` of iteration `k`. -/
def written_count (env : Env) (bytes_per_frame k : Nat) : Nat :=
  fwrite_count bytes_per_frame (frames_read env k) (env.fwrite_room k)

/-- The bytes of the elements that the `fwrite` of iteration `k` reports as
written.  On a buffered stream these are bytes the stream has taken; what
reaches a file is counted by `pcm_stored`. -/
def written (env : Env) (bytes_per_frame k : Nat) : List Nat :=
  buffer_bytes env k (written_count env bytes_per_frame k * bytes_per_frame)

/-- The variables of the loop: the global `capturing`, the number of reads
done, `total_frames_read`, and the events of the loop so far. -/
structure LoopState where
  capturing : Bool
  k : Nat
  total_frames_read : Nat
  trace : List Event

/-- How the loop was left. -/
inductive LoopExit where
  /-- The `while (capturing)` test failed. -/
  | cond
  /-- The `break` after a short write. -/
  | brk
  /-- The division by `rate = 0` stopped the process. -/
  | sigfpe
deriving DecidableEq, Repr

/-- One pass from the `while (capturing)` test to the end of the body
(lines 304-314): either the state for the next test, or the way out.  A SIGINT
that arrives during the body is seen by the next test, like one that arrives
between the body and that test. -/
def loop_iter (env : Env) (out : Target) (rate capture_time bytes_per_frame : Nat)
    (s : LoopState) : LoopState ⊕ (LoopExit × LoopState) :=
  let capturing := if env.sigint s.k then sigint_handler SIGINT s.capturing else s.capturing
  if capturing = false then
    .inr (.cond, { s with capturing := false })
  else
    let fr := frames_read env s.k
    let total := u32 (s.total_frames_read + fr)
    let tr := s.trace ++ [Event.pcm_readi env.buffer_size (env.readi s.k)]
    if rate = 0 then
      .inr (.sigfpe, { s with capturing := true, total_frames_read := total, trace := tr })
    else
      let capturing1 := if time_limit_reached total rate capture_time then false else capturing
      let n := written_count env bytes_per_frame s.k
      let tr := tr ++ [Event.fwrite_frames out (written env bytes_per_frame s.k)]
      if n ≠ fr then
        .inr (.brk, { capturing := capturing1, k := s.k + 1, total_frames_read := total,
                      trace := tr ++ [Event.fprintf_stderr Diag.error_capturing] })
      else
        .inl { capturing := capturing1, k := s.k + 1, total_frames_read := total, trace := tr }

/-- The loop, observed for at most `fuel` tests of `capturing`: `none` when it
is still running after them. -/
def capture_loop (env : Env) (out : Target) (rate capture_time bytes_per_frame : Nat) :
    Nat → LoopState → Option LoopExit × LoopState
  | 0, s => (none, s)
  | fuel + 1, s =>
    match loop_iter env out rate capture_time bytes_per_frame s with
    | .inl s1 => capture_loop env out rate capture_time bytes_per_frame fuel s1
    | .inr r => (some r.1, r.2)

/-- How a call ended within the observed steps. -/
inductive Outcome where
  | running
  | returned (value : Nat)
  | killed
deriving DecidableEq, Repr

/-- The text of `printf("Capturing sample: %u ch, %u hz, %u bit\n", ...)`. -/
def msg_capturing (channels rate nbits : Nat) : List Nat :=
  ascii ("Capturing sample: " ++ toString channels ++ " ch, " ++ toString rate ++ " hz, "
    ++ toString nbits ++ " bit\n")

/-- The text of `printf("Captured %u frames.\n", frames)`. -/
def msg_captured (frames : Nat) : List Nat :=
  ascii ("Captured " ++ toString frames ++ " frames.\n")

/-- The events of `capture_sample` before the loop when the device opens and
the buffer is allocated. -/
def capture_begin (env : Env) (prinfo : Bool) (card device channels rate : Nat)
    (format : pcm_format) (period_size period_count : Nat) : List Event :=
  [Event.pcm_open card device channels rate format period_size period_count,
   Event.malloc (pcm_frames_to_bytes channels format env.buffer_size)]
  ++ (if prinfo then [Event.printf (msg_capturing channels rate (pcm_format_to_bits format))]
      else [])

/-- The function `capture_sample`, observed for at most `fuel` tests of
`capturing`: how it ended and its events.  `out` is the stream behind `file`,
`prinfo` the global of that name. -/
def capture_sample (env : Env) (out : Target) (prinfo : Bool)
    (card device channels rate : Nat) (format : pcm_format)
    (period_size period_count capture_time : Nat) (fuel : Nat) : Outcome × List Event :=
  let opened := Event.pcm_open card device channels rate format period_size period_count
  if env.pcm_open_ok = false ∨ env.pcm_is_ready = false then
    (.returned 0, [opened, Event.fprintf_stderr Diag.unable_to_open_pcm])
  else
    let size := pcm_frames_to_bytes channels format env.buffer_size
    if env.malloc_ok = false then
      (.returned 0, [opened, Event.malloc size,
                     Event.fprintf_stderr (Diag.unable_to_allocate size), Event.pcm_close])
    else
      let bytes_per_frame := pcm_frames_to_bytes channels format 1
      let start : LoopState :=
        { capturing := true, k := 0, total_frames_read := 0,
          trace := capture_begin env prinfo card device channels rate format
                     period_size period_count }
      match capture_loop env out rate capture_time bytes_per_frame fuel start with
      | (none, s) => (.running, s.trace)
      | (some .sigfpe, s) => (.killed, s.trace)
      | (some _, s) => (.returned s.total_frames_read, s.trace ++ [Event.free, Event.pcm_close])

/-! ## main -/

/-- The option values after the `getopt_long` loop of `main`, and the output
argument.  Each number is an `unsigned int`. -/
structure Options where
  card : Nat
  device : Nat
  channels : Nat
  rate : Nat
  period_size : Nat
  period_count : Nat
  capture_time : Nat
  filename : String

/-- How the process stands after the observed steps. -/
inductive Status where
  | running
  | exited (code : Nat)
  | killed
deriving DecidableEq, Repr

/-- What `main` did: the status, the events in order, and the values of the
locals `frames` and `header` at that point. -/
structure Run where
  status : Status
  trace : List Event
  frames : Nat
  header : wav_header

/-- The function `main` from line 182 on, for parsed options `o`, observed for
at most `fuel` tests of `capturing`.  The `fseek` calls and the `fwrite` of the
header are taken to succeed: the code does not look at their results. -/
def main (env : Env) (o : Options) (fuel : Nat) : Run :=
  let to_stdout : Bool := decide (o.filename = "--")
  let file : Target := if to_stdout then Target.stdout else Target.path
  let prinfo : Bool := !to_stdout
  let no_header : Bool := to_stdout
  if to_stdout = false ∧ env.fopen_ok = false then
    { status := .exited EXIT_FAILURE
      trace := [Event.fprintf_stderr Diag.unable_to_create_file]
      frames := 0
      header := blank_header }
  else
    match format_of_bits bits with
    | none =>
      { status := .exited EXIT_FAILURE
        trace := [Event.fprintf_stderr (Diag.bits_not_supported bits)]
        frames := 0
        header := start_header o.channels o.rate }
    | some format =>
      let header := build_header o.channels o.rate format
      let tr0 := (if no_header then [] else [Event.fseek file sizeof_wav_header])
        ++ [Event.signal]
      match capture_sample env file prinfo o.card o.device header.num_channels
          header.sample_rate format o.period_size o.period_count o.capture_time fuel with
      | (.running, ev) => { status := .running, trace := tr0 ++ ev, frames := 0, header := header }
      | (.killed, ev) => { status := .killed, trace := tr0 ++ ev, frames := 0, header := header }
      | (.returned frames, ev) =>
        let tr1 := tr0 ++ ev ++ (if prinfo then [Event.printf (msg_captured frames)] else [])
        if no_header then
          { status := .exited EXIT_SUCCESS, trace := tr1 ++ [Event.fclose file]
            frames := frames, header := header }
        else
          let h := finish_header header frames
          { status := .exited EXIT_SUCCESS
            trace := tr1 ++ [Event.fseek file 0, Event.fwrite_header file (encode_header h),
                             Event.fclose file]
            frames := frames, header := h }

/-! ## Reading a trace -/

/-- An output file: its bytes and the write position. -/
structure FileState where
  content : List Nat
  pos : Nat
deriving DecidableEq, Repr

/-- The bytes of a file after `bs` is written at position `pos`: a gap between
the old last byte and `pos` reads as zeros, and writing nothing changes
nothing. -/
def write_at (c : List Nat) (pos : Nat) (bs : List Nat) : List Nat :=
  if bs = [] then c
  else c.take pos ++ List.replicate (pos - c.length) 0 ++ bs ++ c.drop (pos + bs.length)

/-- The effect of one event on the file opened by `fopen(filename, "wb")`. -/
def file_step (f : FileState) : Event → FileState
  | .fseek .path off => { f with pos := off }
  | .fwrite_frames .path bs => { content := write_at f.content f.pos bs, pos := f.pos + bs.length }
  | .fwrite_header .path bs => { content := write_at f.content f.pos bs, pos := f.pos + bs.length }
  | _ => f

/-- The file after the events `tr`, from the file state `f`. -/
def file_run (f : FileState) (tr : List Event) : FileState := tr.foldl file_step f

/-- The file after a trace, from the empty file that `fopen` creates. -/
def file_after (tr : List Event) : FileState := file_run { content := [], pos := 0 } tr

/-- The image of the output file after a trace, when every element reported as
written has reached the file and nothing else has. -/
def file_image (tr : List Event) : List Nat := (file_after tr).content

/-- The bytes an event puts on stream `t`. -/
def event_bytes (t : Target) : Event → List Nat
  | .fwrite_frames t1 bs => if t1 = t then bs else []
  | .fwrite_header t1 bs => if t1 = t then bs else []
  | .printf bs => if t = Target.stdout then bs else []
  | _ => []

/-- All bytes written to stream `t`, in order. -/
def bytes_to (t : Target) : List Event → List Nat
  | [] => []
  | e :: tr => event_bytes t e ++ bytes_to t tr

/-- Whether an event is an `fseek` on stream `t`. -/
def is_fseek (t : Target) : Event → Bool
  | .fseek t1 _ => decide (t1 = t)
  | _ => false

/-- Whether an event is a `printf`. -/
def is_printf : Event → Bool
  | .printf _ => true
  | _ => false

/-- Whether an event is the write of the header. -/
def is_header_write : Event → Bool
  | .fwrite_header _ _ => true
  | _ => false

/-- Whether an event is a `pcm_readi`. -/
def is_read : Event → Bool
  | .pcm_readi _ _ => true
  | _ => false

/-- Whether an event is an `fwrite` of the capture loop. -/
def is_frame_write : Event → Bool
  | .fwrite_frames _ _ => true
  | _ => false

/-- The number of `fseek` calls on stream `t`. -/
def seeks_on (t : Target) (tr : List Event) : Nat := tr.countP (is_fseek t)

/-- The number of `printf` calls. -/
def printf_calls (tr : List Event) : Nat := tr.countP is_printf

/-- The number of header writes. -/
def header_writes (tr : List Event) : Nat := tr.countP is_header_write

/-- The number of `pcm_readi` calls. -/
def read_calls (tr : List Event) : Nat := tr.countP is_read

/-- The number of `fwrite` calls of the capture loop. -/
def frame_write_calls (tr : List Event) : Nat := tr.countP is_frame_write

/-- Whether an event is neither an `fseek` nor an `fwrite`. -/
def off_file : Event → Bool
  | .fseek _ _ => false
  | .fwrite_frames _ _ => false
  | .fwrite_header _ _ => false
  | _ => true

/-- Whether an event puts nothing on the output file or on standard output. -/
def silent (e : Event) : Bool := off_file e && !is_printf e

/-- The file state while the loop runs, after `fseek(file, 44, SEEK_SET)` on the
new file and the PCM bytes `d` written behind it. -/
def data_file (d : List Nat) : FileState :=
  { content := if d = [] then [] else List.replicate sizeof_wav_header 0 ++ d,
    pos := sizeof_wav_header + d.length }

/-! ## Closed forms for the loop -/

/-- The value of `total_frames_read` after `k` reads. -/
def total_after (env : Env) : Nat → Nat
  | 0 => 0
  | k + 1 => u32 (total_after env k + frames_read env k)

/-- The exact sum of the frame counts of the first `k` reads. -/
def sum_frames (env : Env) : Nat → Nat
  | 0 => 0
  | k + 1 => sum_frames env k + frames_read env k

/-- The events of `k` complete iterations: a read and a write each. -/
def loop_events (env : Env) (out : Target) (bytes_per_frame : Nat) : Nat → List Event
  | 0 => []
  | k + 1 => loop_events env out bytes_per_frame k
      ++ [Event.pcm_readi env.buffer_size (env.readi k),
          Event.fwrite_frames out (written env bytes_per_frame k)]

/-- The bytes written by the first `k` iterations, in order. -/
def loop_data (env : Env) (bytes_per_frame : Nat) : Nat → List Nat
  | 0 => []
  | k + 1 => loop_data env bytes_per_frame k ++ written env bytes_per_frame k

/-- The number of elements written by the first `k` iterations. -/
def sum_written (env : Env) (bytes_per_frame : Nat) : Nat → Nat
  | 0 => 0
  | k + 1 => sum_written env bytes_per_frame k + written_count env bytes_per_frame k

/-- What the buffered stream behind `fopen` does with the bytes of the loop,
beyond the count that `fwrite` returns. -/
structure Buffering where
  /-- The bytes of a further, incomplete element that the stream takes from
  the `fwrite` of iteration `k` when that write is short. -/
  part : Nat → Nat
  /-- How many of the PCM bytes reach the file; a buffered stream can lose
  bytes it has taken when a flush fails. -/
  flushed : Nat

/-- The number of bytes the stream takes from the `fwrite` of iteration `k`:
the elements reported as written and, in a short write, fewer bytes than one
more element. -/
def taken (io : Buffering) (env : Env) (bytes_per_frame k : Nat) : Nat :=
  written_count env bytes_per_frame k * bytes_per_frame
    + (if written_count env bytes_per_frame k < frames_read env k
       then min (io.part k) (bytes_per_frame - 1) else 0)

/-- The number of bytes the stream takes in the first `k` iterations. -/
def sum_taken (io : Buffering) (env : Env) (bytes_per_frame : Nat) : Nat → Nat
  | 0 => 0
  | k + 1 => sum_taken io env bytes_per_frame k + taken io env bytes_per_frame k

/-- The number of PCM bytes in the file after the header once the stream is
closed, after `n` iterations: what reached the file of what the stream took. -/
def pcm_stored (io : Buffering) (env : Env) (bytes_per_frame n : Nat) : Nat :=
  min io.flushed (sum_taken io env bytes_per_frame n)

/-- The write of iteration `k` is complete: `fwrite` returns `frames_read`. -/
def write_ok (env : Env) (bytes_per_frame k : Nat) : Bool :=
  decide (written_count env bytes_per_frame k = frames_read env k)

/-- The time test of iteration `k`, on the counter after its read. -/
def time_up (env : Env) (rate capture_time k : Nat) : Bool :=
  time_limit_reached (total_after env (k + 1)) rate capture_time

/-- Iteration `k` runs in full and leaves `capturing` set: no SIGINT before
its test, the time limit not reached, the write complete. -/
def continues (env : Env) (rate capture_time bytes_per_frame k : Nat) : Bool :=
  !env.sigint k && !time_up env rate capture_time k && write_ok env bytes_per_frame k

/-- The loop state at the test of iteration `k` when all earlier iterations ran
in full, with `capturing` as given and `tr0` the events before the loop. -/
def state_at (env : Env) (out : Target) (bytes_per_frame : Nat) (tr0 : List Event)
    (capturing : Bool) (k : Nat) : LoopState :=
  { capturing := capturing, k := k, total_frames_read := total_after env k,
    trace := tr0 ++ loop_events env out bytes_per_frame k }

/-- Every field of a header is within the width of its slot. -/
def fits (h : wav_header) : Prop :=
  h.riff_id < 4294967296 ∧ h.riff_sz < 4294967296 ∧ h.riff_fmt < 4294967296
  ∧ h.fmt_id < 4294967296 ∧ h.fmt_sz < 4294967296 ∧ h.audio_format < 65536
  ∧ h.num_channels < 65536 ∧ h.sample_rate < 4294967296 ∧ h.byte_rate < 4294967296
  ∧ h.block_align < 65536 ∧ h.bits_per_sample < 65536 ∧ h.data_id < 4294967296
  ∧ h.data_sz < 4294967296

/-- The header relations as the specification states them: the stored fields
related by exact products, which equal the products of the configured values. -/
def header_relations (h : wav_header) (channels rate : Nat) : Prop :=
  h.block_align = h.num_channels * (h.bits_per_sample / 8)
  ∧ h.byte_rate = h.block_align * h.sample_rate
  ∧ h.block_align = channels * (h.bits_per_sample / 8)
  ∧ h.byte_rate = channels * (h.bits_per_sample / 8) * rate

instance (h : wav_header) (channels rate : Nat) : Decidable (header_relations h channels rate) := by
  unfold header_relations; infer_instance

/-! ## Sample environments -/

/-- A device that opens and delivers `n` frames on every read, an output that
takes every write, and no SIGINT. -/
def steady (n : Nat) : Env :=
  { fopen_ok := true, pcm_open_ok := true, pcm_is_ready := true, buffer_size := n,
    malloc_ok := true, readi := fun _ => (n : Int), mem := fun _ _ => 0,
    fwrite_room := fun _ => n, sigint := fun _ => false }

/-- The default option values of `main` with the given output argument. -/
def default_options (filename : String) : Options :=
  { card := 0, device := 0, channels := 2, rate := 48000, period_size := 1024,
    period_count := 4, capture_time := UINT_MAX, filename := filename }

/-- The steady device of 1024 frames a read, with SIGINT delivered after
4194304 iterations (2^32 frames, about 24.8 hours at 48000 Hz). -/
def day_long : Env :=
  { steady 1024 with sigint := fun j => decide (j = 4194304) }

/-- The steady device of 2 frames a read, with SIGINT delivered after two
iterations. -/
def two_then_sigint : Env :=
  { steady 2 with sigint := fun j => decide (j = 2) }

/-- A device that cannot be opened; everything else as the steady device. -/
def no_device : Env :=
  { steady 1024 with pcm_open_ok := false }

/-- The options of `tinycap -t 22370 out.wav`: a capture of 22370 seconds. -/
def long_options : Options :=
  { card := 0, device := 0, channels := 2, rate := 48000, period_size := 1024,
    period_count := 4, capture_time := 22370, filename := "out.wav" }

/-- The options of `tinycap -t 0 out.wav`. -/
def short_options : Options :=
  { card := 0, device := 0, channels := 2, rate := 48000, period_size := 1024,
    period_count := 4, capture_time := 0, filename := "out.wav" }

/-- The options of `tinycap -t 0 --`. -/
def pipe_options : Options :=
  { card := 0, device := 0, channels := 2, rate := 48000, period_size := 1024,
    period_count := 4, capture_time := 0, filename := "--" }

/-- The steady device of 1024 frames a read with an output whose first `fwrite`
takes 14 of the 1024 frames. -/
def short_disk : Env :=
  { steady 1024 with fwrite_room := fun _ => 14 }

/-- A stream that takes 2 bytes of a further frame in a short write and gets
58 bytes into the file. -/
def two_spare_bytes : Buffering :=
  { part := fun _ => 2, flushed := 58 }

/-- A device that delivers 1024 frames and then 1 frame, with an output that
takes the first write whole and nothing of the second. -/
def late_failure : Env :=
  { steady 1024 with
    readi := fun j => if j = 0 then 1024 else 1
    fwrite_room := fun j => if j = 0 then 1024 else 0 }

/-- A stream that gets only 56 of the bytes it took into the file. -/
def lost_buffer : Buffering :=
  { part := fun _ => 0, flushed := 56 }

/-- A device whose every read returns -1, an error code. -/
def failing_read : Env :=
  { steady 1024 with readi := fun _ => -1 }

/-- The options of `tinycap -c 65537 -t 0 out.wav`. -/
def wide_options : Options :=
  { card := 0, device := 0, channels := 65537, rate := 48000, period_size := 1024,
    period_count := 4, capture_time := 0, filename := "out.wav" }

/-! ## Arithmetic of the fixed-width fields -/

theorem u32_lt (n : Nat) : u32 n < 4294967296 := by
  unfold u32; omega

theorem u16_lt (n : Nat) : u16 n < 65536 := by
  unfold u16; omega

theorem u32_of_lt {n : Nat} (h : n < 4294967296) : u32 n = n := by
  unfold u32; omega

theorem u16_of_lt {n : Nat} (h : n < 65536) : u16 n = n := by
  unfold u16; omega

theorem u32_add_u32 (a b : Nat) : u32 (u32 a + b) = u32 (a + b) := by
  unfold u32; omega

theorem total_after_eq (env : Env) (k : Nat) : total_after env k = u32 (sum_frames env k) := by
  induction k with
  | zero => rfl
  | succ k ih => simp only [total_after, sum_frames, ih, u32_add_u32]

theorem total_after_lt (env : Env) (k : Nat) : total_after env k < 4294967296 := by
  rw [total_after_eq]; exact u32_lt _

theorem sum_frames_steady (env : Env) (n : Nat) (h : ∀ j, frames_read env j = n) (k : Nat) :
    sum_frames env k = k * n := by
  induction k with
  | zero => simp [sum_frames]
  | succ k ih => simp only [sum_frames, ih, h]; ring

/-! ## The header fields -/

theorem build_header_bits (channels rate : Nat) :
    (build_header channels rate .PCM_FORMAT_S16_LE).bits_per_sample = 16 := by
  simp [build_header, start_header, blank_header, pcm_format_to_bits, u16]

theorem build_header_block_align (channels rate : Nat) :
    (build_header channels rate .PCM_FORMAT_S16_LE).block_align = u16 (u32 (channels * 2)) := by
  simp [build_header, start_header, blank_header, pcm_format_to_bits, u16]

theorem build_header_byte_rate (channels rate : Nat) :
    (build_header channels rate .PCM_FORMAT_S16_LE).byte_rate
      = u32 (u32 (2 * channels) * rate) := by
  simp [build_header, start_header, blank_header, pcm_format_to_bits, u16]

theorem build_header_relations_iff (channels rate : Nat) :
    header_relations (build_header channels rate .PCM_FORMAT_S16_LE) channels rate
      ↔ (channels * 2 < 65536 ∧ channels * 2 * rate < 4294967296) := by
  unfold header_relations
  rw [build_header_bits, build_header_block_align, build_header_byte_rate]
  have hn : (build_header channels rate .PCM_FORMAT_S16_LE).num_channels = u16 channels := rfl
  have hs : (build_header channels rate .PCM_FORMAT_S16_LE).sample_rate = u32 rate := rfl
  rw [hn, hs]
  constructor
  · rintro ⟨-, -, h3, h4⟩
    have h3a : channels * 2 < 65536 := by
      have := u16_lt (u32 (channels * 2))
      simp only [Nat.reduceDiv] at h3
      omega
    have h4a := u32_lt (u32 (2 * channels) * rate)
    simp only [Nat.reduceDiv] at h4
    exact ⟨h3a, by omega⟩
  · rintro ⟨h1, h2⟩
    have e1 : u32 (channels * 2) = channels * 2 := u32_of_lt (by omega)
    have e2 : u16 (channels * 2) = channels * 2 := u16_of_lt h1
    have e3 : u16 channels = channels := u16_of_lt (by omega)
    have e4 : u32 (2 * channels) = channels * 2 := by rw [Nat.mul_comm]; exact e1
    have e5 : u32 (channels * 2 * rate) = channels * 2 * rate := u32_of_lt h2
    rw [e1, e2, e3, e4, e5]
    refine ⟨rfl, ?_, rfl, rfl⟩
    rcases Nat.eq_zero_or_pos channels with hc | hc
    · subst hc; simp
    · have hr : rate < 4294967296 := by
        by_contra hcon
        have : channels * 2 * 4294967296 ≤ channels * 2 * rate :=
          Nat.mul_le_mul_left _ (by omega)
        omega
      rw [u32_of_lt hr]

theorem finish_header_relations (h : wav_header) (frames channels rate : Nat) :
    header_relations (finish_header h frames) channels rate ↔ header_relations h channels rate := by
  simp [header_relations, finish_header]

theorem main_header_cases (env : Env) (o : Options) (fuel : Nat)
    (hopen : o.filename = "--" ∨ env.fopen_ok = true) :
    (main env o fuel).header = build_header o.channels o.rate .PCM_FORMAT_S16_LE
    ∨ (main env o fuel).header
        = finish_header (build_header o.channels o.rate .PCM_FORMAT_S16_LE) (main env o fuel).frames := by
  have hno : ¬ (decide (o.filename = "--") = false ∧ env.fopen_ok = false) := by
    rintro ⟨h1, h2⟩
    rcases hopen with h | h
    · simp [h] at h1
    · rw [h] at h2; cases h2
  unfold main
  simp only [format_of_bits, bits, hno, if_false]
  simp only [Nat.reduceEqDiff, if_false, if_true]
  split
  · left; rfl
  · left; rfl
  · split
    · left; rfl
    · right; rfl

/-- C3 (as amended).  When the output is opened (or is standard output), the
header `main` builds satisfies the four relations of the specification, with
exact products, exactly when `channels * 2` fits the 16-bit `block_align` and
`channels * 2 * rate` fits the 32-bit `byte_rate`. -/
theorem header_relations_iff_fit (env : Env) (o : Options) (fuel : Nat)
    (hopen : o.filename = "--" ∨ env.fopen_ok = true) :
    header_relations (main env o fuel).header o.channels o.rate
      ↔ (o.channels * 2 < 65536 ∧ o.channels * 2 * o.rate < 4294967296) := by
  rcases main_header_cases env o fuel hopen with h | h
  · rw [h]; exact build_header_relations_iff _ _
  · rw [h, finish_header_relations]; exact build_header_relations_iff _ _

/-- C3 (witness).  `tinycap -t 0 out.wav`: 2 channels at 48000 Hz fit, and the
relations hold. -/
theorem header_relations_iff_fit_witness :
    (steady 2).fopen_ok = true
    ∧ (header_relations (main (steady 2) short_options 2).header short_options.channels
          short_options.rate
        ↔ (short_options.channels * 2 < 65536
            ∧ short_options.channels * 2 * short_options.rate < 4294967296)) :=
  ⟨rfl, header_relations_iff_fit (steady 2) short_options 2 (Or.inr rfl)⟩

/-- C3 (counterexample).  With `-c 65537` and the default rate the stored
`block_align` is 2 and not `65537 * 2`, so the relations fail. -/
theorem header_relations_fail_65537 :
    ¬ header_relations
        (main (steady 1) wide_options 2).header wide_options.channels wide_options.rate := by
  decide

/-! ## The time test -/

theorem time_up_false_of_unbounded (env : Env) (rate k : Nat) (hr : 2 ≤ rate) :
    time_up env rate UINT_MAX k = false := by
  unfold time_up time_limit_reached UINT_MAX
  rw [decide_eq_false_iff_not, Nat.le_div_iff_mul_le (by omega)]
  have := total_after_lt env (k + 1)
  omega

/-- C7 (as amended).  With the default `capture_time = UINT_MAX`, a rate of at
least 1 and a 32-bit counter, the time test is true in exactly one case: rate 1
and the counter at `UINT_MAX`.  For every rate of 2 or more the test of every
iteration of the loop is false, whatever the device returns. -/
theorem time_limit_default_iff (total rate : Nat) (hr : 1 ≤ rate) (ht : total < 4294967296) :
    (time_limit_reached total rate UINT_MAX = true ↔ (rate = 1 ∧ total = UINT_MAX))
    ∧ (2 ≤ rate → ∀ (env : Env) (k : Nat), time_up env rate UINT_MAX k = false) := by
  refine ⟨?_, fun h env k => time_up_false_of_unbounded env rate k h⟩
  unfold time_limit_reached UINT_MAX
  rw [decide_eq_true_iff, Nat.le_div_iff_mul_le (by omega)]
  constructor
  · intro h; constructor <;> omega
  · rintro ⟨h1, h2⟩; subst h1 h2; decide

/-- C7 (witness).  At rate 48000 and a counter of 1024 the test is false. -/
theorem time_limit_default_iff_witness :
    1 ≤ 48000 ∧ 1024 < 4294967296
    ∧ (time_limit_reached 1024 48000 UINT_MAX = true ↔ (48000 = 1 ∧ 1024 = UINT_MAX)) :=
  ⟨by decide, by decide, (time_limit_default_iff 1024 48000 (by decide) (by decide)).1⟩

/-- C7 (counterexample).  At rate 1 with the counter at `UINT_MAX` the test
against the default limit is true; the counter has that value after a first
read that returns -1, so the test of the first iteration is true there. -/
theorem time_limit_default_reached :
    time_limit_reached 4294967295 1 UINT_MAX = true
    ∧ frames_read failing_read 0 = 4294967295
    ∧ time_up failing_read 1 UINT_MAX 0 = true := by
  decide

/-! ## Steps of the loop -/

section Loop

variable (env : Env) (out : Target) (rate capture_time bpf : Nat)

theorem loop_iter_exit (s : LoopState) (h : s.capturing = false ∨ env.sigint s.k = true) :
    loop_iter env out rate capture_time bpf s = .inr (.cond, { s with capturing := false }) := by
  have hh : ∀ c, sigint_handler SIGINT c = false := fun c => by simp [sigint_handler]
  unfold loop_iter
  rcases h with h | h <;> simp [h, hh]

theorem loop_iter_full (tr0 : List Event) (k : Nat) (hs : env.sigint k = false)
    (hr : rate ≠ 0) (hw : write_ok env bpf k = true) :
    loop_iter env out rate capture_time bpf (state_at env out bpf tr0 true k)
      = .inl (state_at env out bpf tr0 (!time_up env rate capture_time k) (k + 1)) := by
  unfold write_ok at hw
  rw [decide_eq_true_iff] at hw
  unfold loop_iter state_at
  simp only [hs, hr, hw, time_up, total_after, loop_events]
  cases time_limit_reached (u32 (total_after env k + frames_read env k)) rate capture_time <;> simp

theorem loop_iter_short (tr0 : List Event) (k : Nat) (hs : env.sigint k = false)
    (hr : rate ≠ 0) (hw : write_ok env bpf k = false) :
    loop_iter env out rate capture_time bpf (state_at env out bpf tr0 true k)
      = .inr (.brk,
          { capturing := !time_up env rate capture_time k, k := k + 1,
            total_frames_read := total_after env (k + 1),
            trace := tr0 ++ loop_events env out bpf (k + 1)
              ++ [Event.fprintf_stderr Diag.error_capturing] }) := by
  unfold write_ok at hw
  rw [decide_eq_false_iff_not] at hw
  unfold loop_iter state_at
  simp only [hs, hr, hw, time_up, total_after, loop_events]
  cases time_limit_reached (u32 (total_after env k + frames_read env k)) rate capture_time <;>
    simp [hw]

theorem continues_iff (k : Nat) :
    continues env rate capture_time bpf k = true
      ↔ env.sigint k = false ∧ time_up env rate capture_time k = false
        ∧ write_ok env bpf k = true := by
  unfold continues
  simp [Bool.and_eq_true, and_assoc]

theorem capture_loop_succ (fuel : Nat) (s : LoopState) :
    capture_loop env out rate capture_time bpf (fuel + 1) s
      = match loop_iter env out rate capture_time bpf s with
        | .inl s1 => capture_loop env out rate capture_time bpf fuel s1
        | .inr r => (some r.1, r.2) := rfl

theorem capture_loop_advance (tr0 : List Event) (hr : rate ≠ 0) (k : Nat) :
    (∀ j, j < k → continues env rate capture_time bpf j = true) →
    ∀ fuel, capture_loop env out rate capture_time bpf (k + fuel) (state_at env out bpf tr0 true 0)
      = capture_loop env out rate capture_time bpf fuel (state_at env out bpf tr0 true k) := by
  induction k with
  | zero => intro _ fuel; simp
  | succ k ih =>
    intro h fuel
    have hk := (continues_iff env rate capture_time bpf k).1 (h k (Nat.lt_succ_self k))
    have e : k + 1 + fuel = k + (fuel + 1) := by omega
    rw [e, ih (fun j hj => h j (Nat.lt_succ_of_lt hj)) (fuel + 1), capture_loop_succ,
      loop_iter_full env out rate capture_time bpf tr0 k hk.1 hr hk.2.2, hk.2.1]
    rfl

/-- The loop is still running after `fuel` tests when that many iterations
continue. -/
theorem capture_loop_running (tr0 : List Event) (hr : rate ≠ 0) (fuel : Nat)
    (h : ∀ j, j < fuel → continues env rate capture_time bpf j = true) :
    capture_loop env out rate capture_time bpf fuel (state_at env out bpf tr0 true 0)
      = (none, state_at env out bpf tr0 true fuel) := by
  have := capture_loop_advance env out rate capture_time bpf tr0 hr fuel h 0
  simpa [capture_loop] using this

/-- The loop leaves at the test of iteration `k` when the flag is clear there. -/
theorem capture_loop_stop (tr0 : List Event) (c : Bool) (k fuel : Nat)
    (h : c = false ∨ env.sigint k = true) :
    capture_loop env out rate capture_time bpf (fuel + 1) (state_at env out bpf tr0 c k)
      = (some .cond, state_at env out bpf tr0 false k) := by
  rw [capture_loop_succ, loop_iter_exit env out rate capture_time bpf _ h]
  rfl

end Loop

/-! ## capture_sample -/

section Capture

variable (env : Env) (out : Target) (prinfo : Bool) (card device channels rate : Nat)
  (format : pcm_format) (period_size period_count capture_time : Nat)

theorem capture_sample_open_fail (h : env.pcm_open_ok = false ∨ env.pcm_is_ready = false)
    (fuel : Nat) :
    capture_sample env out prinfo card device channels rate format period_size period_count
        capture_time fuel
      = (.returned 0,
         [Event.pcm_open card device channels rate format period_size period_count,
          Event.fprintf_stderr Diag.unable_to_open_pcm]) := by
  unfold capture_sample
  simp [h]

theorem capture_sample_malloc_fail (ho : env.pcm_open_ok = true) (hy : env.pcm_is_ready = true)
    (hm : env.malloc_ok = false) (fuel : Nat) :
    capture_sample env out prinfo card device channels rate format period_size period_count
        capture_time fuel
      = (.returned 0,
         [Event.pcm_open card device channels rate format period_size period_count,
          Event.malloc (pcm_frames_to_bytes channels format env.buffer_size),
          Event.fprintf_stderr
            (Diag.unable_to_allocate (pcm_frames_to_bytes channels format env.buffer_size)),
          Event.pcm_close]) := by
  unfold capture_sample
  simp [ho, hy, hm]

/-- With the device open and the buffer allocated, `capture_sample` is the loop
from its start state, followed by `free` and `pcm_close` when the loop ends. -/
theorem capture_sample_loop (ho : env.pcm_open_ok = true) (hy : env.pcm_is_ready = true)
    (hm : env.malloc_ok = true) (fuel : Nat) :
    capture_sample env out prinfo card device channels rate format period_size period_count
        capture_time fuel
      = match capture_loop env out rate capture_time (pcm_frames_to_bytes channels format 1) fuel
            (state_at env out (pcm_frames_to_bytes channels format 1)
              (capture_begin env prinfo card device channels rate format period_size period_count)
              true 0) with
        | (none, s) => (.running, s.trace)
        | (some .sigfpe, s) => (.killed, s.trace)
        | (some _, s) => (.returned s.total_frames_read, s.trace ++ [Event.free, Event.pcm_close]) := by
  unfold capture_sample
  simp [ho, hy, hm, state_at, total_after, loop_events]

/-- A capture that the time limit ends in iteration `k`. -/
theorem capture_sample_timed (ho : env.pcm_open_ok = true) (hy : env.pcm_is_ready = true)
    (hm : env.malloc_ok = true) (hr : rate ≠ 0) (k : Nat)
    (hc : ∀ j, j < k → continues env rate capture_time (pcm_frames_to_bytes channels format 1) j = true)
    (hs : env.sigint k = false)
    (hw : write_ok env (pcm_frames_to_bytes channels format 1) k = true)
    (ht : time_up env rate capture_time k = true) (fuel : Nat) (hf : k + 2 ≤ fuel) :
    capture_sample env out prinfo card device channels rate format period_size period_count
        capture_time fuel
      = (.returned (total_after env (k + 1)),
         capture_begin env prinfo card device channels rate format period_size period_count
           ++ loop_events env out (pcm_frames_to_bytes channels format 1) (k + 1)
           ++ [Event.free, Event.pcm_close]) := by
  obtain ⟨f, rfl⟩ : ∃ f, fuel = k + (f + 1 + 1) := ⟨fuel - (k + 2), by omega⟩
  rw [capture_sample_loop env out prinfo card device channels rate format period_size
        period_count capture_time ho hy hm,
      capture_loop_advance env out rate capture_time _ _ hr k hc, capture_loop_succ,
      loop_iter_full env out rate capture_time _ _ k hs hr hw, ht]
  simp only [Bool.not_true]
  rw [capture_loop_stop env out rate capture_time _ _ false (k + 1) f (Or.inl rfl)]
  rfl

/-- A capture whose first `k` iterations continue and whose iteration `k` runs in
full is still running after `k + 1` tests. -/
theorem capture_sample_running (ho : env.pcm_open_ok = true) (hy : env.pcm_is_ready = true)
    (hm : env.malloc_ok = true) (hr : rate ≠ 0) (k : Nat)
    (hc : ∀ j, j < k → continues env rate capture_time (pcm_frames_to_bytes channels format 1) j = true)
    (hs : env.sigint k = false)
    (hw : write_ok env (pcm_frames_to_bytes channels format 1) k = true)
    (fuel : Nat) (hf : fuel ≤ k + 1) :
    (capture_sample env out prinfo card device channels rate format period_size period_count
        capture_time fuel).1 = .running := by
  rw [capture_sample_loop env out prinfo card device channels rate format period_size
        period_count capture_time ho hy hm]
  rcases Nat.lt_or_ge fuel (k + 1) with h | h
  · rw [capture_loop_running env out rate capture_time _ _ hr fuel
      (fun j hj => hc j (by omega))]
  · have e : fuel = k + 1 := by omega
    subst e
    rw [capture_loop_advance env out rate capture_time _ _ hr k hc, capture_loop_succ,
      loop_iter_full env out rate capture_time _ _ k hs hr hw]
    rfl

/-- A capture that SIGINT ends at the test of iteration `k`. -/
theorem capture_sample_interrupted (ho : env.pcm_open_ok = true) (hy : env.pcm_is_ready = true)
    (hm : env.malloc_ok = true) (k : Nat) (hr : k = 0 ∨ rate ≠ 0)
    (hc : ∀ j, j < k → env.sigint j = false
      ∧ write_ok env (pcm_frames_to_bytes channels format 1) j = true
      ∧ (j + 1 < k → time_up env rate capture_time j = false))
    (hs : env.sigint k = true) (fuel : Nat) (hf : k + 1 ≤ fuel) :
    capture_sample env out prinfo card device channels rate format period_size period_count
        capture_time fuel
      = (.returned (total_after env k),
         capture_begin env prinfo card device channels rate format period_size period_count
           ++ loop_events env out (pcm_frames_to_bytes channels format 1) k
           ++ [Event.free, Event.pcm_close]) := by
  rw [capture_sample_loop env out prinfo card device channels rate format period_size
        period_count capture_time ho hy hm]
  cases k with
  | zero =>
    obtain ⟨f, rfl⟩ : ∃ f, fuel = f + 1 := ⟨fuel - 1, by omega⟩
    rw [capture_loop_stop env out rate capture_time _ _ true 0 f (Or.inr hs)]
    rfl
  | succ m =>
    obtain ⟨f, rfl⟩ : ∃ f, fuel = m + (f + 1 + 1) := ⟨fuel - (m + 2), by omega⟩
    have hcont : ∀ j, j < m →
        continues env rate capture_time (pcm_frames_to_bytes channels format 1) j = true := by
      intro j hj
      obtain ⟨h1, h2, h3⟩ := hc j (by omega)
      exact (continues_iff env rate capture_time _ j).2 ⟨h1, h3 (by omega), h2⟩
    obtain ⟨h1, h2, -⟩ := hc m (by omega)
    have hr : rate ≠ 0 := hr.resolve_left (Nat.succ_ne_zero m)
    rw [capture_loop_advance env out rate capture_time _ _ hr m hcont, capture_loop_succ,
      loop_iter_full env out rate capture_time _ _ m h1 hr h2]
    simp only []
    rw [capture_loop_stop env out rate capture_time _ _ _ (m + 1) f (Or.inr hs)]
    rfl

/-- A capture that a short write ends in iteration `k`. -/
theorem capture_sample_short (ho : env.pcm_open_ok = true) (hy : env.pcm_is_ready = true)
    (hm : env.malloc_ok = true) (hr : rate ≠ 0) (k : Nat)
    (hc : ∀ j, j < k → continues env rate capture_time (pcm_frames_to_bytes channels format 1) j = true)
    (hs : env.sigint k = false)
    (hw : write_ok env (pcm_frames_to_bytes channels format 1) k = false)
    (fuel : Nat) (hf : k + 1 ≤ fuel) :
    capture_sample env out prinfo card device channels rate format period_size period_count
        capture_time fuel
      = (.returned (total_after env (k + 1)),
         capture_begin env prinfo card device channels rate format period_size period_count
           ++ loop_events env out (pcm_frames_to_bytes channels format 1) (k + 1)
           ++ [Event.fprintf_stderr Diag.error_capturing]
           ++ [Event.free, Event.pcm_close]) := by
  obtain ⟨f, rfl⟩ : ∃ f, fuel = k + (f + 1) := ⟨fuel - (k + 1), by omega⟩
  rw [capture_sample_loop env out prinfo card device channels rate format period_size
        period_count capture_time ho hy hm,
      capture_loop_advance env out rate capture_time _ _ hr k hc, capture_loop_succ,
      loop_iter_short env out rate capture_time _ _ k hs hr hw]

end Capture

/-! ## The stop conditions of the loop -/

theorem frames_read_steady (n : Nat) (hn : n < 4294967296) (j : Nat) :
    frames_read (steady n) j = n := by
  unfold frames_read steady int_to_u32
  simp only []
  omega

theorem write_ok_of_room (env : Env) (bpf k : Nat) (hb : bpf ≠ 0)
    (h : frames_read env k ≤ env.fwrite_room k) : write_ok env bpf k = true := by
  unfold write_ok written_count fwrite_count
  rw [decide_eq_true_iff]
  by_cases h0 : frames_read env k = 0
  · simp [h0]
  · simp [hb, h0, h]

/-- The stop rule of the time limit: with no SIGINT and no short write, if
iteration `k` holds the first read after which `total_frames_read / rate >= N`,
then `capture_sample` does the reads and writes of iterations `0..k` in order,
frees the buffer, closes the device and returns the counter after read `k`,
and it is still running at every earlier test. -/
theorem stop_rule_general (env : Env) (out : Target) (prinfo : Bool)
    (card device channels rate : Nat) (format : pcm_format)
    (period_size period_count N k : Nat)
    (hr : 1 ≤ rate) (ho : env.pcm_open_ok = true) (hy : env.pcm_is_ready = true)
    (hm : env.malloc_ok = true)
    (hs : ∀ j, j ≤ k → env.sigint j = false)
    (hw : ∀ j, j ≤ k → write_ok env (pcm_frames_to_bytes channels format 1) j = true)
    (hlt : ∀ j, j < k → total_after env (j + 1) / rate < N)
    (hge : N ≤ total_after env (k + 1) / rate) :
    (∀ fuel, k + 2 ≤ fuel →
        capture_sample env out prinfo card device channels rate format period_size
            period_count N fuel
          = (.returned (total_after env (k + 1)),
             capture_begin env prinfo card device channels rate format period_size period_count
               ++ loop_events env out (pcm_frames_to_bytes channels format 1) (k + 1)
               ++ [Event.free, Event.pcm_close]))
    ∧ (∀ fuel, fuel ≤ k + 1 →
        (capture_sample env out prinfo card device channels rate format period_size
            period_count N fuel).1 = .running) := by
  have hr0 : rate ≠ 0 := by omega
  have hc : ∀ j, j < k →
      continues env rate N (pcm_frames_to_bytes channels format 1) j = true := by
    intro j hj
    refine (continues_iff env rate N _ j).2 ⟨hs j (by omega), ?_, hw j (by omega)⟩
    unfold time_up time_limit_reached
    rw [decide_eq_false_iff_not]
    have := hlt j hj
    omega
  have ht : time_up env rate N k = true := by
    unfold time_up time_limit_reached
    rw [decide_eq_true_iff]
    exact hge
  exact ⟨fun fuel hf => capture_sample_timed env out prinfo card device channels rate format
            period_size period_count N ho hy hm hr0 k hc (hs k (Nat.le_refl k))
            (hw k (Nat.le_refl k)) ht fuel hf,
         fun fuel hf => capture_sample_running env out prinfo card device channels rate format
            period_size period_count N ho hy hm hr0 k hc (hs k (Nat.le_refl k))
            (hw k (Nat.le_refl k)) fuel hf⟩

/-- The stop rule at 48000 Hz with a limit of one second, on a device that
delivers one period of 1024 frames a read: the 47th read is the first to reach
the limit, and 48128 frames are returned. -/
theorem stop_rule_period_reads (env : Env) (out : Target) (prinfo : Bool)
    (card device channels : Nat) (format : pcm_format)
    (ho : env.pcm_open_ok = true) (hy : env.pcm_is_ready = true) (hm : env.malloc_ok = true)
    (hfr : ∀ j, frames_read env j = 1024)
    (hs : ∀ j, j ≤ 46 → env.sigint j = false)
    (hw : ∀ j, j ≤ 46 → write_ok env (pcm_frames_to_bytes channels format 1) j = true)
    (fuel : Nat) (hf : 48 ≤ fuel) :
    capture_sample env out prinfo card device channels 48000 format 1024 4 1 fuel
      = (.returned 48128,
         capture_begin env prinfo card device channels 48000 format 1024 4
           ++ loop_events env out (pcm_frames_to_bytes channels format 1) 47
           ++ [Event.free, Event.pcm_close]) := by
  have htot : ∀ j, j ≤ 47 → total_after env j = j * 1024 := by
    intro j hj
    rw [total_after_eq, sum_frames_steady env 1024 hfr j]
    exact u32_of_lt (by omega)
  have h := (stop_rule_general env out prinfo card device channels 48000 format 1024 4 1 46
    (by omega) ho hy hm hs hw
    (by intro j hj; rw [htot (j + 1) (by omega)]; omega)
    (by rw [htot 47 (by omega)])).1 fuel hf
  rw [htot 47 (by omega)] at h
  exact h

/-- The stop rule at 48000 Hz with a limit of one second, on a device that
delivers the whole requested buffer of `1024 * 4 = 4096` frames a read: the
12th read is the first to reach the limit, and 49152 frames are returned. -/
theorem stop_rule_buffer_reads (env : Env) (out : Target) (prinfo : Bool)
    (card device channels : Nat) (format : pcm_format)
    (ho : env.pcm_open_ok = true) (hy : env.pcm_is_ready = true) (hm : env.malloc_ok = true)
    (hfr : ∀ j, frames_read env j = 4096)
    (hs : ∀ j, j ≤ 11 → env.sigint j = false)
    (hw : ∀ j, j ≤ 11 → write_ok env (pcm_frames_to_bytes channels format 1) j = true)
    (fuel : Nat) (hf : 13 ≤ fuel) :
    capture_sample env out prinfo card device channels 48000 format 1024 4 1 fuel
      = (.returned 49152,
         capture_begin env prinfo card device channels 48000 format 1024 4
           ++ loop_events env out (pcm_frames_to_bytes channels format 1) 12
           ++ [Event.free, Event.pcm_close]) := by
  have htot : ∀ j, j ≤ 12 → total_after env j = j * 4096 := by
    intro j hj
    rw [total_after_eq, sum_frames_steady env 4096 hfr j]
    exact u32_of_lt (by omega)
  have h := (stop_rule_general env out prinfo card device channels 48000 format 1024 4 1 11
    (by omega) ho hy hm hs hw
    (by intro j hj; rw [htot (j + 1) (by omega)]; omega)
    (by rw [htot 12 (by omega)])).1 fuel hf
  rw [htot 12 (by omega)] at h
  exact h

/-- C6 (as amended).  The stop rule of the time limit.  First part: for a rate of
at least 1 and a limit `N`, with no SIGINT and no short write, if iteration `k`
holds the first read after which `total_frames_read / rate >= N`, then
`capture_sample` does the reads and writes of iterations `0..k` in order,
frees the buffer, closes the device and returns the counter after read `k`
(for every number of observed tests from `k + 2` on), and it is still running
at every earlier test.  Second part: with `N = 1`, rate 48000, period size
1024 and period count 4, on a device that delivers one period of 1024 frames a
read, it returns 48128 after exactly 47 reads and writes.  Third part: with
the same options, on a device that delivers the requested buffer of 4096
frames a read, it returns 49152 after exactly 12 reads and writes. -/
theorem time_limit_stop_rule :
    (∀ (env : Env) (out : Target) (prinfo : Bool)
       (card device channels rate : Nat) (format : pcm_format)
       (period_size period_count N k : Nat),
       1 ≤ rate → env.pcm_open_ok = true → env.pcm_is_ready = true → env.malloc_ok = true →
       (∀ j, j ≤ k → env.sigint j = false) →
       (∀ j, j ≤ k → write_ok env (pcm_frames_to_bytes channels format 1) j = true) →
       (∀ j, j < k → total_after env (j + 1) / rate < N) →
       N ≤ total_after env (k + 1) / rate →
       (∀ fuel, k + 2 ≤ fuel →
          capture_sample env out prinfo card device channels rate format period_size
              period_count N fuel
            = (.returned (total_after env (k + 1)),
               capture_begin env prinfo card device channels rate format period_size period_count
                 ++ loop_events env out (pcm_frames_to_bytes channels format 1) (k + 1)
                 ++ [Event.free, Event.pcm_close]))
       ∧ (∀ fuel, fuel ≤ k + 1 →
          (capture_sample env out prinfo card device channels rate format period_size
              period_count N fuel).1 = .running))
    ∧ (∀ (env : Env) (out : Target) (prinfo : Bool)
         (card device channels : Nat) (format : pcm_format),
         env.pcm_open_ok = true → env.pcm_is_ready = true → env.malloc_ok = true →
         (∀ j, frames_read env j = 1024) →
         (∀ j, j ≤ 46 → env.sigint j = false) →
         (∀ j, j ≤ 46 → write_ok env (pcm_frames_to_bytes channels format 1) j = true) →
         ∀ fuel, 48 ≤ fuel →
           capture_sample env out prinfo card device channels 48000 format 1024 4 1 fuel
             = (.returned 48128,
                capture_begin env prinfo card device channels 48000 format 1024 4
                  ++ loop_events env out (pcm_frames_to_bytes channels format 1) 47
                  ++ [Event.free, Event.pcm_close]))
    ∧ (∀ (env : Env) (out : Target) (prinfo : Bool)
         (card device channels : Nat) (format : pcm_format),
         env.pcm_open_ok = true → env.pcm_is_ready = true → env.malloc_ok = true →
         (∀ j, frames_read env j = 4096) →
         (∀ j, j ≤ 11 → env.sigint j = false) →
         (∀ j, j ≤ 11 → write_ok env (pcm_frames_to_bytes channels format 1) j = true) →
         ∀ fuel, 13 ≤ fuel →
           capture_sample env out prinfo card device channels 48000 format 1024 4 1 fuel
             = (.returned 49152,
                capture_begin env prinfo card device channels 48000 format 1024 4
                  ++ loop_events env out (pcm_frames_to_bytes channels format 1) 12
                  ++ [Event.free, Event.pcm_close])) :=
  ⟨stop_rule_general, stop_rule_period_reads, stop_rule_buffer_reads⟩

/-- C6 (witness).  The steady device of 2 frames a read, rate 2, limit 2: the
second read is the first to reach the limit, and `capture_sample` returns 4.
And the steady device of 1024 frames a read at 48000 Hz with a limit of one
second: `capture_sample` returns 48128. -/
theorem time_limit_stop_rule_witness :
    (1 ≤ 2 ∧ total_after (steady 2) 1 / 2 < 2 ∧ 2 ≤ total_after (steady 2) 2 / 2
      ∧ capture_sample (steady 2) Target.path true 0 0 2 2 .PCM_FORMAT_S16_LE 1024 4 2 3
          = (.returned (total_after (steady 2) 2),
             capture_begin (steady 2) true 0 0 2 2 .PCM_FORMAT_S16_LE 1024 4
               ++ loop_events (steady 2) Target.path
                    (pcm_frames_to_bytes 2 .PCM_FORMAT_S16_LE 1) 2
               ++ [Event.free, Event.pcm_close]))
    ∧ (capture_sample (steady 1024) Target.path true 0 0 2 48000 .PCM_FORMAT_S16_LE 1024 4 1 48).1
        = .returned 48128 :=
  ⟨⟨by decide, by decide, by decide,
    (time_limit_stop_rule.1 (steady 2) Target.path true 0 0 2 2 .PCM_FORMAT_S16_LE 1024 4 2 1
       (by decide) rfl rfl rfl (fun _ _ => rfl) (by decide) (by decide) (by decide)).1 3
       (by decide)⟩,
   congrArg Prod.fst
     (time_limit_stop_rule.2.1 (steady 1024) Target.path true 0 0 2 .PCM_FORMAT_S16_LE rfl rfl rfl
       (frames_read_steady 1024 (by decide)) (fun _ _ => rfl)
       (fun j _ => write_ok_of_room (steady 1024) _ j (by decide)
         (by rw [frames_read_steady 1024 (by decide) j]; exact Nat.le_refl 1024))
       48 (by decide))⟩

/-- C6 (counterexample).  `tinycap -t 1` with the default rate 48000, period size
1024 and period count 4, on the steady device whose buffer is `1024 * 4 = 4096`
frames and whose every read delivers the 4096 frames asked for: the loop stops
after the 12th read and `capture_sample` returns 49152 frames, not 48128 after
a 47th read. -/
theorem buffer_reads_return_49152 :
    (steady 4096).buffer_size = 1024 * 4
    ∧ frames_read (steady 4096) 0 = (steady 4096).buffer_size
    ∧ capture_sample (steady 4096) Target.path true 0 0 2 48000 .PCM_FORMAT_S16_LE 1024 4 1 13
        = (.returned 49152,
           capture_begin (steady 4096) true 0 0 2 48000 .PCM_FORMAT_S16_LE 1024 4
             ++ loop_events (steady 4096) Target.path
                  (pcm_frames_to_bytes 2 .PCM_FORMAT_S16_LE 1) 12
             ++ [Event.free, Event.pcm_close])
    ∧ (capture_sample (steady 4096) Target.path true 0 0 2 48000 .PCM_FORMAT_S16_LE 1024 4 1
          13).1 ≠ .returned 48128 := by
  have h := stop_rule_buffer_reads (steady 4096) Target.path true 0 0 2 .PCM_FORMAT_S16_LE
    rfl rfl rfl (frames_read_steady 4096 (by decide)) (fun _ _ => rfl)
    (fun j _ => write_ok_of_room (steady 4096) _ j (by decide)
      (by rw [frames_read_steady 4096 (by decide) j]; exact Nat.le_refl 4096))
    13 (by decide)
  refine ⟨by decide, by decide, h, ?_⟩
  rw [h]
  decide

/-- C8 (as amended).  If the first `k` iterations have completed (no SIGINT before
their tests, complete writes, the time limit not reached before the last of
them, and a rate other than 0 when there is any iteration at all) and SIGINT
is delivered before the test of iteration `k`, then
`capture_sample` does no further read or write: its events are those of the
`k` iterations followed by `free` and `pcm_close`, and it returns the sum of
the frame counts of the first `k` reads modulo 2^32, which is the sum itself
when the sum is below 2^32. -/
theorem interrupt_stops_capture (env : Env) (out : Target) (prinfo : Bool)
    (card device channels rate : Nat) (format : pcm_format)
    (period_size period_count capture_time k : Nat)
    (hr : k = 0 ∨ 1 ≤ rate) (ho : env.pcm_open_ok = true) (hy : env.pcm_is_ready = true)
    (hm : env.malloc_ok = true)
    (hc : ∀ j, j < k → env.sigint j = false
      ∧ write_ok env (pcm_frames_to_bytes channels format 1) j = true
      ∧ (j + 1 < k → time_up env rate capture_time j = false))
    (hs : env.sigint k = true) (fuel : Nat) (hf : k + 1 ≤ fuel) :
    capture_sample env out prinfo card device channels rate format period_size period_count
        capture_time fuel
      = (.returned (sum_frames env k % 4294967296),
         capture_begin env prinfo card device channels rate format period_size period_count
           ++ loop_events env out (pcm_frames_to_bytes channels format 1) k
           ++ [Event.free, Event.pcm_close])
    ∧ (sum_frames env k < 4294967296 →
        (capture_sample env out prinfo card device channels rate format period_size period_count
          capture_time fuel).1 = .returned (sum_frames env k)) := by
  have h := capture_sample_interrupted env out prinfo card device channels rate format
    period_size period_count capture_time ho hy hm k (hr.imp id (fun h => by omega)) hc hs
    fuel hf
  rw [total_after_eq] at h
  refine ⟨h, fun hlt => ?_⟩
  rw [h]
  simp only [u32_of_lt hlt]

/-- C8 (witness).  The steady device of 2 frames a read with SIGINT after two
iterations: `capture_sample` returns 4 after two reads and two writes. -/
theorem interrupt_stops_capture_witness :
    two_then_sigint.sigint 2 = true
    ∧ capture_sample two_then_sigint Target.path true 0 0 2 48000 .PCM_FORMAT_S16_LE 1024 4
          UINT_MAX 3
      = (.returned (sum_frames two_then_sigint 2 % 4294967296),
         capture_begin two_then_sigint true 0 0 2 48000 .PCM_FORMAT_S16_LE 1024 4
           ++ loop_events two_then_sigint Target.path
                (pcm_frames_to_bytes 2 .PCM_FORMAT_S16_LE 1) 2
           ++ [Event.free, Event.pcm_close]) :=
  ⟨by decide,
   (interrupt_stops_capture two_then_sigint Target.path true 0 0 2 48000 .PCM_FORMAT_S16_LE
      1024 4 UINT_MAX 2 (Or.inr (by decide)) rfl rfl rfl (by decide) (by decide) 3
      (by decide)).1⟩

/-- C8 (counterexample).  On the steady device of 1024 frames a read, with SIGINT
delivered after 4194304 completed iterations, `capture_sample` has done
exactly those 4194304 reads and writes and returns 0, while the frame counts
of the reads add up to 4294967296. -/
theorem interrupt_total_wraps :
    day_long.sigint 4194304 = true
    ∧ capture_sample day_long Target.path true 0 0 2 48000 .PCM_FORMAT_S16_LE 1024 4
          UINT_MAX 4194305
      = (.returned 0,
         capture_begin day_long true 0 0 2 48000 .PCM_FORMAT_S16_LE 1024 4
           ++ loop_events day_long Target.path
                (pcm_frames_to_bytes 2 .PCM_FORMAT_S16_LE 1) 4194304
           ++ [Event.free, Event.pcm_close])
    ∧ sum_frames day_long 4194304 = 4294967296
    ∧ (capture_sample day_long Target.path true 0 0 2 48000 .PCM_FORMAT_S16_LE 1024 4
          UINT_MAX 4194305).1 ≠ .returned (sum_frames day_long 4194304) := by
  have hfr : ∀ j, frames_read day_long j = 1024 := fun j =>
    frames_read_steady 1024 (by omega) j
  have hsum : sum_frames day_long 4194304 = 4294967296 := by
    rw [sum_frames_steady day_long 1024 hfr]
  have h := capture_sample_interrupted day_long Target.path true 0 0 2 48000
    .PCM_FORMAT_S16_LE 1024 4 UINT_MAX rfl rfl rfl 4194304 (Or.inr (by omega))
    (fun j hj => ⟨by
        show decide (j = 4194304) = false
        rw [decide_eq_false_iff_not]; omega,
      write_ok_of_room day_long _ j (by decide) (by rw [hfr j]; exact Nat.le_refl 1024),
      fun _ => time_up_false_of_unbounded day_long 48000 j (by omega)⟩)
    (by decide) 4194305 (by omega)
  rw [total_after_eq, hsum] at h
  refine ⟨by decide, h, hsum, ?_⟩
  rw [h, hsum]
  decide

/-! ## Traces -/

theorem file_run_append (f : FileState) (a b : List Event) :
    file_run f (a ++ b) = file_run (file_run f a) b := by
  simp [file_run, List.foldl_append]

theorem file_step_off_file (f : FileState) (e : Event) (h : off_file e = true) :
    file_step f e = f := by
  cases e <;> simp_all [off_file, file_step]

theorem file_run_off_file (f : FileState) (tr : List Event) (h : tr.all off_file = true) :
    file_run f tr = f := by
  induction tr generalizing f with
  | nil => rfl
  | cons e tr ih =>
    simp only [List.all_cons, Bool.and_eq_true] at h
    simp only [file_run, List.foldl_cons] at ih ⊢
    rw [file_step_off_file f e h.1]
    exact ih f h.2

theorem write_at_end (c bs : List Nat) (pos : Nat) (hp : pos = c.length) (hb : bs ≠ []) :
    write_at c pos bs = c ++ bs := by
  subst hp
  simp [write_at, hb]

theorem write_at_empty (bs : List Nat) (pos : Nat) (hb : bs ≠ []) :
    write_at [] pos bs = List.replicate pos 0 ++ bs := by
  simp [write_at, hb]

theorem file_step_data (d bs : List Nat) :
    file_step (data_file d) (Event.fwrite_frames Target.path bs) = data_file (d ++ bs) := by
  by_cases hb : bs = []
  · subst hb; simp [file_step, data_file, write_at]
  · by_cases hd : d = []
    · subst hd
      simp only [file_step, data_file, if_true, write_at_empty _ _ hb, List.nil_append,
        List.length_nil, Nat.add_zero, hb, if_false]
    · have hl : (List.replicate sizeof_wav_header 0 ++ d).length = sizeof_wav_header + d.length := by
        simp
      simp only [file_step, data_file, hd, if_false, List.append_eq_nil, hb, and_false,
        List.length_append, Nat.add_assoc, List.append_assoc]
      rw [write_at_end _ _ _ hl.symm hb, List.append_assoc]

theorem file_run_loop_events (env : Env) (bpf k : Nat) :
    file_run (data_file []) (loop_events env Target.path bpf k)
      = data_file (loop_data env bpf k) := by
  induction k with
  | zero => rfl
  | succ k ih =>
    simp only [loop_events, loop_data, file_run_append, ih]
    simp only [file_run, List.foldl_cons, List.foldl_nil]
    rw [file_step_off_file _ (Event.pcm_readi env.buffer_size (env.readi k)) rfl, file_step_data]

theorem encode_header_length (h : wav_header) : (encode_header h).length = 44 := by
  simp [encode_header, le32, le16]

theorem write_header_over_data (d hdr : List Nat) (hl : hdr.length = 44) :
    write_at (data_file d).content 0 hdr = hdr ++ d := by
  have hne : hdr ≠ [] := by intro h; rw [h] at hl; simp at hl
  by_cases hd : d = []
  · subst hd; simp [write_at, data_file, hne]
  · have e : List.drop hdr.length (List.replicate sizeof_wav_header 0 ++ d) = d := by
      rw [hl]
      exact List.drop_left' (by simp [sizeof_wav_header])
    simp [write_at, data_file, hne, hd, e]

theorem bytes_to_append (t : Target) (a b : List Event) :
    bytes_to t (a ++ b) = bytes_to t a ++ bytes_to t b := by
  induction a with
  | nil => rfl
  | cons e a ih => simp [bytes_to, ih]

theorem bytes_to_silent (t : Target) (tr : List Event) (h : tr.all silent = true) :
    bytes_to t tr = [] := by
  induction tr with
  | nil => rfl
  | cons e tr ih =>
    simp only [List.all_cons, Bool.and_eq_true] at h
    have he : event_bytes t e = [] := by
      have := h.1
      cases e <;> simp_all [silent, off_file, is_printf, event_bytes]
    simp [bytes_to, he, ih h.2]

theorem bytes_to_loop_events (env : Env) (t : Target) (bpf k : Nat) :
    bytes_to t (loop_events env t bpf k) = loop_data env bpf k := by
  induction k with
  | zero => rfl
  | succ k ih => simp [loop_events, loop_data, bytes_to_append, ih, bytes_to, event_bytes]

theorem all_off_file_of_silent (tr : List Event) (h : tr.all silent = true) :
    tr.all off_file = true := by
  simp only [List.all_eq_true] at h ⊢
  intro e he
  have := h e he
  simp only [silent, Bool.and_eq_true] at this
  exact this.1

theorem countP_zero_of_silent (p : Event → Bool) (hp : ∀ e, silent e = true → p e = false)
    (tr : List Event) (h : tr.all silent = true) : tr.countP p = 0 := by
  rw [List.countP_eq_zero]
  simp only [List.all_eq_true] at h
  intro e he
  simp [hp e (h e he)]

theorem silent_not_fseek (t : Target) (e : Event) (h : silent e = true) : is_fseek t e = false := by
  cases e <;> simp_all [silent, off_file, is_fseek]

theorem silent_not_printf (e : Event) (h : silent e = true) : is_printf e = false := by
  cases e <;> simp_all [silent, off_file, is_printf]

theorem silent_not_header_write (e : Event) (h : silent e = true) :
    is_header_write e = false := by
  cases e <;> simp_all [silent, off_file, is_header_write]

theorem silent_not_frame_write (e : Event) (h : silent e = true) :
    is_frame_write e = false := by
  cases e <;> simp_all [silent, off_file, is_frame_write]

theorem loop_events_counts (env : Env) (t u : Target) (bpf k : Nat) :
    frame_write_calls (loop_events env t bpf k) = k
    ∧ read_calls (loop_events env t bpf k) = k
    ∧ seeks_on u (loop_events env t bpf k) = 0
    ∧ printf_calls (loop_events env t bpf k) = 0
    ∧ header_writes (loop_events env t bpf k) = 0 := by
  induction k with
  | zero => simp [loop_events, frame_write_calls, read_calls, seeks_on, printf_calls, header_writes]
  | succ k ih =>
    simp only [frame_write_calls, read_calls, seeks_on, printf_calls, header_writes] at ih ⊢
    simp [loop_events, List.countP_append, List.countP_cons, ih, is_frame_write, is_read,
      is_fseek, is_printf, is_header_write]

/-! ## main -/

section Main

variable (env : Env) (o : Options)

/-- The run of `main` on a real file that `fopen` created. -/
theorem main_path (hname : o.filename ≠ "--") (hf : env.fopen_ok = true) (fuel : Nat) :
    main env o fuel
      = match capture_sample env Target.path true o.card o.device (u16 o.channels) (u32 o.rate)
            .PCM_FORMAT_S16_LE o.period_size o.period_count o.capture_time fuel with
        | (.running, ev) =>
          { status := .running
            trace := [Event.fseek Target.path sizeof_wav_header, Event.signal] ++ ev
            frames := 0
            header := build_header o.channels o.rate .PCM_FORMAT_S16_LE }
        | (.killed, ev) =>
          { status := .killed
            trace := [Event.fseek Target.path sizeof_wav_header, Event.signal] ++ ev
            frames := 0
            header := build_header o.channels o.rate .PCM_FORMAT_S16_LE }
        | (.returned frames, ev) =>
          { status := .exited EXIT_SUCCESS
            trace := [Event.fseek Target.path sizeof_wav_header, Event.signal] ++ ev
              ++ [Event.printf (msg_captured frames)]
              ++ [Event.fseek Target.path 0,
                  Event.fwrite_header Target.path (encode_header
                    (finish_header (build_header o.channels o.rate .PCM_FORMAT_S16_LE) frames)),
                  Event.fclose Target.path]
            frames := frames
            header := finish_header (build_header o.channels o.rate .PCM_FORMAT_S16_LE) frames } := by
  unfold main
  simp only [hname, hf, format_of_bits, bits, decide_False, Bool.not_false]
  simp only [Nat.reduceEqDiff, if_false, if_true, Bool.false_eq_true, and_false, and_true]
  rfl

/-- The run of `main` with `--` as the output argument. -/
theorem main_stdout (hname : o.filename = "--") (fuel : Nat) :
    main env o fuel
      = match capture_sample env Target.stdout false o.card o.device (u16 o.channels)
            (u32 o.rate) .PCM_FORMAT_S16_LE o.period_size o.period_count o.capture_time fuel with
        | (.running, ev) =>
          { status := .running, trace := [Event.signal] ++ ev, frames := 0
            header := build_header o.channels o.rate .PCM_FORMAT_S16_LE }
        | (.killed, ev) =>
          { status := .killed, trace := [Event.signal] ++ ev, frames := 0
            header := build_header o.channels o.rate .PCM_FORMAT_S16_LE }
        | (.returned frames, ev) =>
          { status := .exited EXIT_SUCCESS
            trace := [Event.signal] ++ ev ++ [] ++ [Event.fclose Target.stdout]
            frames := frames
            header := build_header o.channels o.rate .PCM_FORMAT_S16_LE } := by
  unfold main
  simp only [hname, format_of_bits, bits, decide_True, Bool.not_true]
  simp only [Nat.reduceEqDiff, if_false, if_true, Bool.true_eq_false, false_and]
  rfl

end Main

/-! ## The shape of every trace -/

section Shape

variable (env : Env) (out : Target) (rate capture_time bpf : Nat)

theorem loop_iter_sigfpe (tr0 : List Event) (k : Nat) (hs : env.sigint k = false) :
    loop_iter env out 0 capture_time bpf (state_at env out bpf tr0 true k)
      = .inr (.sigfpe,
          { capturing := true, k := k,
            total_frames_read := u32 (total_after env k + frames_read env k),
            trace := tr0 ++ loop_events env out bpf k
              ++ [Event.pcm_readi env.buffer_size (env.readi k)] }) := by
  unfold loop_iter state_at
  simp [hs]

/-- Whatever the loop does within `fuel` tests, its events are those of some
number `k` of iterations (each a read and the write of what `fwrite` took),
followed by events that touch no output; unless the division stopped the
process, the counter is the one after `k` reads. -/
theorem capture_loop_shape (tr0 : List Event) (fuel : Nat) : ∀ (c : Bool) (k0 : Nat),
    ∃ k tail,
      (capture_loop env out rate capture_time bpf fuel (state_at env out bpf tr0 c k0)).2.trace
          = tr0 ++ loop_events env out bpf k ++ tail
      ∧ tail.all silent = true
      ∧ ((capture_loop env out rate capture_time bpf fuel (state_at env out bpf tr0 c k0)).1
            ≠ some .sigfpe →
          (capture_loop env out rate capture_time bpf fuel
            (state_at env out bpf tr0 c k0)).2.total_frames_read = total_after env k) := by
  induction fuel with
  | zero =>
    intro c k0
    exact ⟨k0, [], by simp [capture_loop, state_at], rfl, fun _ => rfl⟩
  | succ fuel ih =>
    intro c k0
    by_cases hstop : c = false ∨ env.sigint k0 = true
    · rw [capture_loop_stop env out rate capture_time bpf tr0 c k0 fuel hstop]
      exact ⟨k0, [], by simp [state_at], rfl, fun _ => rfl⟩
    · have hc : c = true := by
        cases c
        · exact absurd (Or.inl rfl) hstop
        · rfl
      have hs : env.sigint k0 = false := by
        cases h : env.sigint k0
        · rfl
        · exact absurd (Or.inr h) hstop
      subst hc
      by_cases hr : rate = 0
      · subst hr
        rw [capture_loop_succ, loop_iter_sigfpe env out capture_time bpf tr0 k0 hs]
        exact ⟨k0, [Event.pcm_readi env.buffer_size (env.readi k0)], rfl, rfl,
          fun h => absurd rfl h⟩
      · cases hw : write_ok env bpf k0
        · rw [capture_loop_succ, loop_iter_short env out rate capture_time bpf tr0 k0 hs hr hw]
          exact ⟨k0 + 1, [Event.fprintf_stderr Diag.error_capturing], rfl, rfl, fun _ => rfl⟩
        · rw [capture_loop_succ, loop_iter_full env out rate capture_time bpf tr0 k0 hs hr hw]
          exact ih _ (k0 + 1)

end Shape

/-- Whatever `capture_sample` does within `fuel` tests, its events are: events
that touch no file (and print nothing unless `prinfo` is set), then those of
some number `k` of loop iterations, then events that touch no output; a
returned value is the counter after `k` reads. -/
theorem capture_sample_shape (env : Env) (out : Target) (prinfo : Bool)
    (card device channels rate : Nat) (format : pcm_format)
    (period_size period_count capture_time fuel : Nat) :
    ∃ k pre tail,
      (capture_sample env out prinfo card device channels rate format period_size period_count
          capture_time fuel).2
        = pre ++ loop_events env out (pcm_frames_to_bytes channels format 1) k ++ tail
      ∧ pre.all off_file = true
      ∧ ( prinfo = false → pre.all silent = true)
      ∧ tail.all silent = true
      ∧ (∀ v, (capture_sample env out prinfo card device channels rate format period_size
            period_count capture_time fuel).1 = .returned v → v = total_after env k) := by
  by_cases hfail : env.pcm_open_ok = false ∨ env.pcm_is_ready = false
  · rw [capture_sample_open_fail env out prinfo card device channels rate format period_size
      period_count capture_time hfail fuel]
    refine ⟨0, [Event.pcm_open card device channels rate format period_size period_count,
      Event.fprintf_stderr Diag.unable_to_open_pcm], [], by simp [loop_events], rfl,
      fun _ => rfl, rfl, ?_⟩
    intro v hv
    simp only [Outcome.returned.injEq] at hv
    rw [← hv]; rfl
  · have ho : env.pcm_open_ok = true := by
      cases h : env.pcm_open_ok
      · exact absurd (Or.inl h) hfail
      · rfl
    have hy : env.pcm_is_ready = true := by
      cases h : env.pcm_is_ready
      · exact absurd (Or.inr h) hfail
      · rfl
    cases hm : env.malloc_ok
    · rw [capture_sample_malloc_fail env out prinfo card device channels rate format period_size
        period_count capture_time ho hy hm fuel]
      refine ⟨0, [Event.pcm_open card device channels rate format period_size period_count,
        Event.malloc (pcm_frames_to_bytes channels format env.buffer_size),
        Event.fprintf_stderr
          (Diag.unable_to_allocate (pcm_frames_to_bytes channels format env.buffer_size)),
        Event.pcm_close], [], by simp [loop_events], rfl, fun _ => rfl, rfl, ?_⟩
      intro v hv
      simp only [Outcome.returned.injEq] at hv
      rw [← hv]; rfl
    · rw [capture_sample_loop env out prinfo card device channels rate format period_size
        period_count capture_time ho hy hm fuel]
      obtain ⟨k, tail, htr, htail, htot⟩ := capture_loop_shape env out rate capture_time
        (pcm_frames_to_bytes channels format 1)
        (capture_begin env prinfo card device channels rate format period_size period_count)
        fuel true 0
      have hpre : (capture_begin env prinfo card device channels rate format period_size
          period_count).all off_file = true := by
        cases prinfo <;> rfl
      have hpre2 : prinfo = false → (capture_begin env prinfo card device channels rate format
          period_size period_count).all silent = true := by
        intro h; subst h; rfl
      generalize capture_loop env out rate capture_time (pcm_frames_to_bytes channels format 1)
        fuel (state_at env out (pcm_frames_to_bytes channels format 1)
          (capture_begin env prinfo card device channels rate format period_size period_count)
          true 0) = res at htr htot
      obtain ⟨e, st⟩ := res
      cases e with
      | none =>
        exact ⟨k, _, tail, htr, hpre, hpre2, htail, fun v hv => by simp at hv⟩
      | some x =>
        cases x with
        | sigfpe => exact ⟨k, _, tail, htr, hpre, hpre2, htail, fun v hv => by simp at hv⟩
        | cond =>
          refine ⟨k, _, tail ++ [Event.free, Event.pcm_close], ?_, hpre, hpre2, ?_, ?_⟩
          · simp only [] at htr ⊢
            rw [htr, List.append_assoc]
          · simp [List.all_append, htail, silent, off_file, is_printf]
          · intro v hv
            simp only [Outcome.returned.injEq] at hv
            rw [← hv]; exact htot (by simp)
        | brk =>
          refine ⟨k, _, tail ++ [Event.free, Event.pcm_close], ?_, hpre, hpre2, ?_, ?_⟩
          · simp only [] at htr ⊢
            rw [htr, List.append_assoc]
          · simp [List.all_append, htail, silent, off_file, is_printf]
          · intro v hv
            simp only [Outcome.returned.injEq] at hv
            rw [← hv]; exact htot (by simp)

/-! ## Exit status and output -/

theorem written_length (env : Env) (bpf j : Nat) :
    (written env bpf j).length = written_count env bpf j * bpf := by
  simp [written, buffer_bytes]

/-- The measures of a trace made of silent events around the events of `k`
loop iterations that write to `t`. -/
theorem silent_around_loop (env : Env) (t u : Target) (bpf k : Nat)
    (a pre tail post : List Event) (ha : a.all silent = true) (hpre : pre.all silent = true)
    (htail : tail.all silent = true) (hpost : post.all silent = true) :
    bytes_to t (a ++ (pre ++ loop_events env t bpf k ++ tail) ++ post) = loop_data env bpf k
    ∧ frame_write_calls (a ++ (pre ++ loop_events env t bpf k ++ tail) ++ post) = k
    ∧ header_writes (a ++ (pre ++ loop_events env t bpf k ++ tail) ++ post) = 0
    ∧ seeks_on u (a ++ (pre ++ loop_events env t bpf k ++ tail) ++ post) = 0
    ∧ printf_calls (a ++ (pre ++ loop_events env t bpf k ++ tail) ++ post) = 0 := by
  obtain ⟨c1, -, c3, c4, c5⟩ := loop_events_counts env t u bpf k
  have z := fun (p : Event → Bool) (hp : ∀ e, silent e = true → p e = false) =>
    And.intro (countP_zero_of_silent p hp a ha)
      (And.intro (countP_zero_of_silent p hp pre hpre)
        (And.intro (countP_zero_of_silent p hp tail htail) (countP_zero_of_silent p hp post hpost)))
  refine ⟨?_, ?_, ?_, ?_, ?_⟩
  · simp [bytes_to_append, bytes_to_silent, ha, hpre, htail, hpost, bytes_to_loop_events]
  · obtain ⟨z1, z2, z3, z4⟩ := z is_frame_write silent_not_frame_write
    simp only [frame_write_calls] at c1 ⊢
    simp [List.countP_append, z1, z2, z3, z4, c1]
  · obtain ⟨z1, z2, z3, z4⟩ := z is_header_write silent_not_header_write
    simp only [header_writes] at c5 ⊢
    simp [List.countP_append, z1, z2, z3, z4, c5]
  · obtain ⟨z1, z2, z3, z4⟩ := z (is_fseek u) (silent_not_fseek u)
    simp only [seeks_on] at c3 ⊢
    simp [List.countP_append, z1, z2, z3, z4, c3]
  · obtain ⟨z1, z2, z3, z4⟩ := z is_printf silent_not_printf
    simp only [printf_calls] at c4 ⊢
    simp [List.countP_append, z1, z2, z3, z4, c4]

/-- C9.  With `--` as the output argument, whatever the device and the output do
and however long the run is observed: the bytes on standard output are the
bytes written by the loop's `fwrite` calls, in order (each call puts out
`bytes_per_frame` bytes for every frame it takes, which is
`frames_read * bytes_per_frame` bytes for a complete write);
the header is never written, no `fseek` is done on any stream, and no `printf`
is done. -/
theorem stdout_is_frames_only (env : Env) (o : Options) (fuel : Nat) (hname : o.filename = "--") :
    bytes_to Target.stdout (main env o fuel).trace
      = loop_data env (pcm_frames_to_bytes (u16 o.channels) .PCM_FORMAT_S16_LE 1)
          (frame_write_calls (main env o fuel).trace)
    ∧ (∀ j, (written env (pcm_frames_to_bytes (u16 o.channels) .PCM_FORMAT_S16_LE 1) j).length
          = written_count env (pcm_frames_to_bytes (u16 o.channels) .PCM_FORMAT_S16_LE 1) j
            * pcm_frames_to_bytes (u16 o.channels) .PCM_FORMAT_S16_LE 1)
    ∧ (∀ j, write_ok env (pcm_frames_to_bytes (u16 o.channels) .PCM_FORMAT_S16_LE 1) j = true →
        (written env (pcm_frames_to_bytes (u16 o.channels) .PCM_FORMAT_S16_LE 1) j).length
          = frames_read env j * pcm_frames_to_bytes (u16 o.channels) .PCM_FORMAT_S16_LE 1)
    ∧ header_writes (main env o fuel).trace = 0
    ∧ (∀ t, seeks_on t (main env o fuel).trace = 0)
    ∧ printf_calls (main env o fuel).trace = 0 := by
  obtain ⟨k, pre, tail, hev, -, hpre, htail, -⟩ := capture_sample_shape env Target.stdout false
    o.card o.device (u16 o.channels) (u32 o.rate) .PCM_FORMAT_S16_LE o.period_size o.period_count
    o.capture_time fuel
  have hpre := hpre rfl
  have key : ∃ post, post.all silent = true ∧ (main env o fuel).trace
      = [Event.signal] ++ (pre ++ loop_events env Target.stdout
          (pcm_frames_to_bytes (u16 o.channels) .PCM_FORMAT_S16_LE 1) k ++ tail) ++ post := by
    rw [main_stdout env o hname fuel]
    generalize capture_sample env Target.stdout false o.card o.device (u16 o.channels)
      (u32 o.rate) .PCM_FORMAT_S16_LE o.period_size o.period_count o.capture_time fuel = res at hev
    obtain ⟨oc, ev⟩ := res
    simp only [] at hev
    subst hev
    cases oc with
    | running => exact ⟨[], rfl, by simp⟩
    | killed => exact ⟨[], rfl, by simp⟩
    | returned v => exact ⟨[Event.fclose Target.stdout], rfl, by simp⟩
  obtain ⟨post, hpost, htr⟩ := key
  rw [htr]
  have h := fun u => silent_around_loop env Target.stdout u
    (pcm_frames_to_bytes (u16 o.channels) .PCM_FORMAT_S16_LE 1) k [Event.signal] pre tail post
    rfl hpre htail hpost
  obtain ⟨h1, h2, h3, -, h5⟩ := h Target.stdout
  refine ⟨by rw [h1, h2], fun j => written_length env _ j, fun j hj => ?_, h3,
    fun t => (h t).2.2.2.1, h5⟩
  unfold write_ok at hj
  rw [decide_eq_true_iff] at hj
  rw [written_length, hj]

/-- C9 (witness).  `tinycap -t 0 --` on the steady device of 2 frames a read: no
`printf` is done. -/
theorem stdout_is_frames_only_witness :
    pipe_options.filename = "--" ∧ printf_calls (main (steady 2) pipe_options 2).trace = 0 :=
  ⟨rfl, (stdout_is_frames_only (steady 2) pipe_options 2 rfl).2.2.2.2.2⟩

/-- C1 (as amended).  When the output is opened (or is standard output), every
exit of `main` after the point where the capture starts has code 0: a run that
exits does so with `EXIT_SUCCESS`; and a device that does not open or is not
ready, a failed allocation, and a short write in the loop each end in an exit
with `EXIT_SUCCESS`. -/
theorem exit_code_after_capture (env : Env) (o : Options)
    (hopen : o.filename = "--" ∨ env.fopen_ok = true) :
    (∀ fuel code, (main env o fuel).status = .exited code → code = EXIT_SUCCESS)
    ∧ ((env.pcm_open_ok = false ∨ env.pcm_is_ready = false) →
        ∀ fuel, (main env o fuel).status = .exited EXIT_SUCCESS)
    ∧ (env.pcm_open_ok = true → env.pcm_is_ready = true → env.malloc_ok = false →
        ∀ fuel, (main env o fuel).status = .exited EXIT_SUCCESS)
    ∧ (∀ k, env.pcm_open_ok = true → env.pcm_is_ready = true → env.malloc_ok = true →
        u32 o.rate ≠ 0 →
        (∀ j, j < k → continues env (u32 o.rate) o.capture_time
          (pcm_frames_to_bytes (u16 o.channels) .PCM_FORMAT_S16_LE 1) j = true) →
        env.sigint k = false →
        write_ok env (pcm_frames_to_bytes (u16 o.channels) .PCM_FORMAT_S16_LE 1) k = false →
        ∀ fuel, k + 1 ≤ fuel → (main env o fuel).status = .exited EXIT_SUCCESS) := by
  have hstatus : ∀ fuel, ∃ t p,
      (main env o fuel).status
        = match (capture_sample env t p o.card o.device (u16 o.channels) (u32 o.rate)
            .PCM_FORMAT_S16_LE o.period_size o.period_count o.capture_time fuel).1 with
          | .running => .running
          | .killed => .killed
          | .returned _ => .exited EXIT_SUCCESS := by
    intro fuel
    by_cases hname : o.filename = "--"
    · refine ⟨Target.stdout, false, ?_⟩
      rw [main_stdout env o hname fuel]
      generalize capture_sample env Target.stdout false o.card o.device (u16 o.channels)
        (u32 o.rate) .PCM_FORMAT_S16_LE o.period_size o.period_count o.capture_time fuel = res
      obtain ⟨oc, ev⟩ := res
      cases oc <;> rfl
    · have hf : env.fopen_ok = true := hopen.resolve_left hname
      refine ⟨Target.path, true, ?_⟩
      rw [main_path env o hname hf fuel]
      generalize capture_sample env Target.path true o.card o.device (u16 o.channels)
        (u32 o.rate) .PCM_FORMAT_S16_LE o.period_size o.period_count o.capture_time fuel = res
      obtain ⟨oc, ev⟩ := res
      cases oc <;> rfl
  refine ⟨?_, ?_, ?_, ?_⟩
  · intro fuel code h
    obtain ⟨t, p, hs⟩ := hstatus fuel
    rw [hs] at h
    split at h
    · cases h
    · cases h
    · simp only [Status.exited.injEq] at h
      exact h.symm
  · intro hfail fuel
    obtain ⟨t, p, hs⟩ := hstatus fuel
    rw [hs, capture_sample_open_fail env t p _ _ _ _ _ _ _ _ hfail fuel]
  · intro ho hy hm fuel
    obtain ⟨t, p, hs⟩ := hstatus fuel
    rw [hs, capture_sample_malloc_fail env t p _ _ _ _ _ _ _ _ ho hy hm fuel]
  · intro k ho hy hm hr hc hsig hw fuel hfuel
    obtain ⟨t, p, hs⟩ := hstatus fuel
    rw [hs, capture_sample_short env t p _ _ _ _ _ _ _ _ ho hy hm hr k hc hsig hw fuel hfuel]

/-- C1 (witness).  The default options with output `out.wav` on a device that
cannot be opened: `main` exits with `EXIT_SUCCESS`. -/
theorem exit_code_after_capture_witness :
    no_device.fopen_ok = true ∧ no_device.pcm_open_ok = false
    ∧ (main no_device (default_options "out.wav") 0).status = .exited EXIT_SUCCESS :=
  ⟨rfl, rfl,
   (exit_code_after_capture no_device (default_options "out.wav") (Or.inr rfl)).2.1
     (Or.inl rfl) 0⟩

/-- C1 (counterexample).  `tinycap out.wav` on a device that cannot be opened:
the file is created, `pcm_open` fails, and the exit code is 0. -/
theorem exit_zero_on_open_failure :
    no_device.fopen_ok = true ∧ no_device.pcm_open_ok = false
    ∧ (main no_device (default_options "out.wav") 1).status = .exited 0 := by
  decide

/-! ## The output file -/

/-- The image of the file after a completed run: the header, then the PCM bytes
of the loop. -/
theorem file_image_run (env : Env) (bpf k : Nat) (pre tail post : List Event) (hdr : List Nat)
    (hpre : pre.all off_file = true) (htail : tail.all off_file = true)
    (hpost : post.all off_file = true) (hl : hdr.length = 44) :
    file_image ([Event.fseek Target.path sizeof_wav_header, Event.signal]
        ++ (pre ++ loop_events env Target.path bpf k ++ tail) ++ post
        ++ [Event.fseek Target.path 0, Event.fwrite_header Target.path hdr,
            Event.fclose Target.path])
      = hdr ++ loop_data env bpf k := by
  have h0 : file_run { content := [], pos := 0 }
      [Event.fseek Target.path sizeof_wav_header, Event.signal] = data_file [] := rfl
  have e : file_image ([Event.fseek Target.path sizeof_wav_header, Event.signal]
        ++ (pre ++ loop_events env Target.path bpf k ++ tail) ++ post
        ++ [Event.fseek Target.path 0, Event.fwrite_header Target.path hdr,
            Event.fclose Target.path])
      = (file_run (data_file (loop_data env bpf k))
          [Event.fseek Target.path 0, Event.fwrite_header Target.path hdr,
            Event.fclose Target.path]).content := by
    show (file_run _ _).content = _
    rw [file_run_append, file_run_append, file_run_append, file_run_append, file_run_append, h0,
      file_run_off_file _ pre hpre, file_run_loop_events, file_run_off_file _ tail htail,
      file_run_off_file _ post hpost]
  rw [e]
  simp only [file_run, List.foldl_cons, List.foldl_nil, file_step]
  exact write_header_over_data _ hdr hl

theorem loop_data_length (env : Env) (bpf k : Nat) :
    (loop_data env bpf k).length = sum_written env bpf k * bpf := by
  induction k with
  | zero => simp [loop_data, sum_written]
  | succ k ih => simp [loop_data, sum_written, ih, written_length, Nat.add_mul]

theorem sum_written_eq (env : Env) (bpf k : Nat)
    (h : ∀ j, j < k → write_ok env bpf j = true) : sum_written env bpf k = sum_frames env k := by
  induction k with
  | zero => rfl
  | succ k ih =>
    have hk := h k (Nat.lt_succ_self k)
    unfold write_ok at hk
    rw [decide_eq_true_iff] at hk
    simp only [sum_written, sum_frames, ih (fun j hj => h j (Nat.lt_succ_of_lt hj)), hk]

theorem written_count_le (env : Env) (bpf k : Nat) :
    written_count env bpf k ≤ frames_read env k := by
  unfold written_count fwrite_count
  split
  · exact Nat.zero_le _
  · exact Nat.min_le_left _ _

/-- The bytes per frame that `capture_sample` gets from the library for the
configuration `main` passes, when the channel count fits 16 bits. -/
theorem bytes_per_frame_eq (channels : Nat) (h : channels < 65536) :
    pcm_frames_to_bytes (u16 channels) .PCM_FORMAT_S16_LE 1 = channels * 2 := by
  unfold pcm_frames_to_bytes pcm_format_to_bits
  rw [u16_of_lt h]
  simp only [Nat.reduceDiv, Nat.one_mul]
  exact u32_of_lt (by omega)

/-- A completed run of `main` on a real file: whatever way the capture ended, the
value `frames` is what `capture_sample` returned, the header is the finished
one, and the file holds that header followed by the PCM bytes of the loop. -/
theorem main_path_completed (env : Env) (o : Options) (fuel : Nat) (hname : o.filename ≠ "--")
    (hf : env.fopen_ok = true) (code : Nat) (hdone : (main env o fuel).status = .exited code) :
    (capture_sample env Target.path true o.card o.device (u16 o.channels) (u32 o.rate)
        .PCM_FORMAT_S16_LE o.period_size o.period_count o.capture_time fuel).1
      = .returned (main env o fuel).frames
    ∧ (main env o fuel).header
        = finish_header (build_header o.channels o.rate .PCM_FORMAT_S16_LE) (main env o fuel).frames
    ∧ ∃ k, (main env o fuel).frames = total_after env k
        ∧ file_image (main env o fuel).trace
            = encode_header (main env o fuel).header
              ++ loop_data env (pcm_frames_to_bytes (u16 o.channels) .PCM_FORMAT_S16_LE 1) k := by
  obtain ⟨k, pre, tail, hev, hpre, -, htail, hret⟩ := capture_sample_shape env Target.path true
    o.card o.device (u16 o.channels) (u32 o.rate) .PCM_FORMAT_S16_LE o.period_size o.period_count
    o.capture_time fuel
  rw [main_path env o hname hf fuel] at hdone ⊢
  generalize capture_sample env Target.path true o.card o.device (u16 o.channels)
    (u32 o.rate) .PCM_FORMAT_S16_LE o.period_size o.period_count o.capture_time fuel = res
    at hev hret hdone
  obtain ⟨oc, ev⟩ := res
  simp only [] at hev
  subst hev
  cases oc with
  | running => simp at hdone
  | killed => simp at hdone
  | returned v =>
    refine ⟨rfl, rfl, k, hret v rfl, ?_⟩
    exact file_image_run env _ k pre tail [Event.printf (msg_captured v)] _ hpre
      (all_off_file_of_silent tail htail) rfl (encode_header_length _)

/-- The run of `main` when `fopen` fails: the diagnostic, and `EXIT_FAILURE`. -/
theorem main_fopen_fail (env : Env) (o : Options) (fuel : Nat) (hname : o.filename ≠ "--")
    (hf : env.fopen_ok = false) :
    main env o fuel
      = { status := .exited EXIT_FAILURE
          trace := [Event.fprintf_stderr Diag.unable_to_create_file]
          frames := 0
          header := blank_header } := by
  unfold main
  simp only [hname, hf, decide_False, and_self, if_true]

/-- C2 (as amended).  For an output path other than `--`, if the device cannot be
opened or is not ready, `main` does no read and writes no PCM data.  When
`fopen` failed, nothing at all is written.  When `fopen` created the file,
`main` still writes the header: the bytes written to the file are exactly the
44 bytes of the header, with `data_sz = 0` and `riff_sz = 36`, and they are
the whole file. -/
theorem open_failure_writes_header (env : Env) (o : Options) (fuel : Nat)
    (hname : o.filename ≠ "--")
    (hfail : env.pcm_open_ok = false ∨ env.pcm_is_ready = false) :
    read_calls (main env o fuel).trace = 0
    ∧ frame_write_calls (main env o fuel).trace = 0
    ∧ (env.fopen_ok = false →
        (main env o fuel).status = .exited EXIT_FAILURE
        ∧ bytes_to Target.path (main env o fuel).trace = [])
    ∧ (env.fopen_ok = true →
        (main env o fuel).status = .exited EXIT_SUCCESS
        ∧ bytes_to Target.path (main env o fuel).trace = encode_header (main env o fuel).header
        ∧ (bytes_to Target.path (main env o fuel).trace).length = 44
        ∧ (main env o fuel).header.data_sz = 0
        ∧ (main env o fuel).header.riff_sz = 36
        ∧ file_image (main env o fuel).trace = encode_header (main env o fuel).header) := by
  have hopen : env.fopen_ok = true →
      read_calls (main env o fuel).trace = 0
      ∧ frame_write_calls (main env o fuel).trace = 0
      ∧ (main env o fuel).status = .exited EXIT_SUCCESS
      ∧ bytes_to Target.path (main env o fuel).trace = encode_header (main env o fuel).header
      ∧ (bytes_to Target.path (main env o fuel).trace).length = 44
      ∧ (main env o fuel).header.data_sz = 0
      ∧ (main env o fuel).header.riff_sz = 36
      ∧ file_image (main env o fuel).trace = encode_header (main env o fuel).header := by
    intro hf
    rw [main_path env o hname hf fuel,
      capture_sample_open_fail env Target.path true _ _ _ _ _ _ _ _ hfail fuel]
    have hl := encode_header_length
      (finish_header (build_header o.channels o.rate .PCM_FORMAT_S16_LE) 0)
    have himg := file_image_run env 0 0
      [Event.pcm_open o.card o.device (u16 o.channels) (u32 o.rate) .PCM_FORMAT_S16_LE
        o.period_size o.period_count, Event.fprintf_stderr Diag.unable_to_open_pcm] []
      [Event.printf (msg_captured 0)] _ rfl rfl rfl hl
    simp only [loop_events, loop_data, List.append_nil] at himg
    have hb : ∀ hdr : List Nat, bytes_to Target.path
        ([Event.fseek Target.path sizeof_wav_header, Event.signal]
          ++ [Event.pcm_open o.card o.device (u16 o.channels) (u32 o.rate) .PCM_FORMAT_S16_LE
                o.period_size o.period_count, Event.fprintf_stderr Diag.unable_to_open_pcm]
          ++ [Event.printf (msg_captured 0)]
          ++ [Event.fseek Target.path 0, Event.fwrite_header Target.path hdr,
              Event.fclose Target.path]) = hdr := by
      intro hdr
      simp [bytes_to, event_bytes]
    refine ⟨rfl, rfl, rfl, hb _, ?_, ?_, ?_, himg⟩
    · exact (congrArg List.length (hb _)).trans hl
    · show u32 (0 * _) = 0
      rw [Nat.zero_mul]; rfl
    · show u32 (u32 (0 * _) + sizeof_wav_header - 8) = 36
      rw [Nat.zero_mul]; rfl
  cases hf : env.fopen_ok
  · rw [main_fopen_fail env o fuel hname hf]
    exact ⟨rfl, rfl, fun _ => ⟨rfl, rfl⟩, fun h => Bool.noConfusion h⟩
  · obtain ⟨h1, h2, h3⟩ := hopen hf
    exact ⟨h1, h2, fun h => Bool.noConfusion h, fun _ => h3⟩

/-- C2 (witness).  The default options with output `out.wav` on a device that
cannot be opened: 44 bytes are written to the file. -/
theorem open_failure_writes_header_witness :
    (default_options "out.wav").filename ≠ "--" ∧ no_device.pcm_open_ok = false
    ∧ (bytes_to Target.path (main no_device (default_options "out.wav") 0).trace).length = 44 :=
  ⟨by decide, rfl,
   ((open_failure_writes_header no_device (default_options "out.wav") 0 (by decide)
     (Or.inl rfl)).2.2.2 rfl).2.2.1⟩

/-- C2 (counterexample).  `tinycap out.wav` on a device that cannot be opened:
the bytes written to `out.wav` are not empty; they are the 44 bytes of a
header. -/
theorem open_failure_output_not_empty :
    no_device.pcm_open_ok = false
    ∧ bytes_to Target.path (main no_device (default_options "out.wav") 1).trace ≠ []
    ∧ (bytes_to Target.path (main no_device (default_options "out.wav") 1).trace).length = 44 := by
  decide

/-- C4 (as amended).  For every completed capture to a real file, with `frames` the
value `capture_sample` returned, the first 44 bytes of the file are the header
with `data_sz = frames * block_align` modulo 2^32 and `riff_sz = data_sz + 36`
modulo 2^32; both are the exact values when `frames * block_align + 36` is
below 2^32. -/
theorem header_sizes (env : Env) (o : Options) (fuel : Nat) (hname : o.filename ≠ "--")
    (hf : env.fopen_ok = true) (hdone : (main env o fuel).status = .exited EXIT_SUCCESS) :
    (capture_sample env Target.path true o.card o.device (u16 o.channels) (u32 o.rate)
        .PCM_FORMAT_S16_LE o.period_size o.period_count o.capture_time fuel).1
      = .returned (main env o fuel).frames
    ∧ (file_image (main env o fuel).trace).take 44 = encode_header (main env o fuel).header
    ∧ (main env o fuel).header.data_sz
        = ((main env o fuel).frames * (main env o fuel).header.block_align) % 4294967296
    ∧ (main env o fuel).header.riff_sz = ((main env o fuel).header.data_sz + 36) % 4294967296
    ∧ ((main env o fuel).frames * (main env o fuel).header.block_align + 36 < 4294967296 →
        (main env o fuel).header.data_sz
            = (main env o fuel).frames * (main env o fuel).header.block_align
        ∧ (main env o fuel).header.riff_sz = (main env o fuel).header.data_sz + 36) := by
  obtain ⟨h1, h2, k, -, h4⟩ := main_path_completed env o fuel hname hf _ hdone
  have hd : (main env o fuel).header.data_sz
      = ((main env o fuel).frames * (main env o fuel).header.block_align) % 4294967296 := by
    rw [h2]; simp [finish_header, u32]
  have hr : (main env o fuel).header.riff_sz
      = ((main env o fuel).header.data_sz + 36) % 4294967296 := by
    rw [h2]; simp [finish_header, u32, sizeof_wav_header]
  refine ⟨h1, ?_, hd, hr, ?_⟩
  · rw [h4]
    exact List.take_left' (encode_header_length _)
  · intro hlt
    have e1 : (main env o fuel).header.data_sz
        = (main env o fuel).frames * (main env o fuel).header.block_align := by
      rw [hd]; exact Nat.mod_eq_of_lt (by omega)
    refine ⟨e1, ?_⟩
    rw [hr]; exact Nat.mod_eq_of_lt (by omega)

/-- C4 (witness).  The steady device of 2 frames a read with a time limit of 0:
the capture completes after one read and the header sizes are exact. -/
theorem header_sizes_witness :
    short_options.filename ≠ "--"
    ∧ (main (steady 2) short_options 2).status = .exited EXIT_SUCCESS
    ∧ (main (steady 2) short_options 2).header.data_sz
        = ((main (steady 2) short_options 2).frames
            * (main (steady 2) short_options 2).header.block_align) % 4294967296 :=
  ⟨by decide, by decide,
   (header_sizes (steady 2) short_options 2 (by decide) rfl (by decide)).2.2.1⟩

/-- C4 (counterexample).  `tinycap -t 22370 out.wav` on the steady device of 1024
frames a read: the capture completes after 1048594 reads with
`frames = 1073760256` and `block_align = 4`, and the header holds
`data_sz = 73728`, not `frames * block_align = 4295041024`. -/
theorem header_data_sz_wraps :
    (main (steady 1024) long_options 1048596).status = .exited EXIT_SUCCESS
    ∧ (main (steady 1024) long_options 1048596).frames = 1073760256
    ∧ (main (steady 1024) long_options 1048596).header.block_align = 4
    ∧ (main (steady 1024) long_options 1048596).header.data_sz = 73728
    ∧ (main (steady 1024) long_options 1048596).header.data_sz
        ≠ (main (steady 1024) long_options 1048596).frames
          * (main (steady 1024) long_options 1048596).header.block_align := by
  have hfr : ∀ j, frames_read (steady 1024) j = 1024 := fun j =>
    frames_read_steady 1024 (by omega) j
  have htot : ∀ j, j ≤ 1048594 → total_after (steady 1024) j = j * 1024 := by
    intro j hj
    rw [total_after_eq, sum_frames_steady (steady 1024) 1024 hfr j]
    exact u32_of_lt (by omega)
  have hrate : u32 long_options.rate = 48000 := rfl
  have hbpf : pcm_frames_to_bytes (u16 long_options.channels) .PCM_FORMAT_S16_LE 1 = 4 := rfl
  have hwok : ∀ j, write_ok (steady 1024)
      (pcm_frames_to_bytes (u16 long_options.channels) .PCM_FORMAT_S16_LE 1) j = true := by
    intro j
    refine write_ok_of_room (steady 1024) _ j (by rw [hbpf]; omega) ?_
    rw [hfr j]; exact Nat.le_refl 1024
  obtain ⟨k, hk⟩ : ∃ k : Nat, k = 1048593 := ⟨_, rfl⟩
  have hcs := capture_sample_timed (steady 1024) Target.path true long_options.card
    long_options.device (u16 long_options.channels) (u32 long_options.rate) .PCM_FORMAT_S16_LE
    long_options.period_size long_options.period_count long_options.capture_time
    rfl rfl rfl (by rw [hrate]; omega) k
    (fun j hj => (continues_iff (steady 1024) _ _ _ j).2 ⟨rfl, by
        unfold time_up time_limit_reached
        rw [decide_eq_false_iff_not, htot (j + 1) (by omega), hrate]
        show ¬ 22370 ≤ (j + 1) * 1024 / 48000
        omega, hwok j⟩)
    rfl (hwok k)
    (by
      unfold time_up time_limit_reached
      rw [decide_eq_true_iff, htot (k + 1) (by omega), hrate]
      show 22370 ≤ (k + 1) * 1024 / 48000
      omega)
    1048596 (by omega)
  have hval : total_after (steady 1024) (k + 1) = 1073760256 := by
    rw [htot (k + 1) (by omega)]; omega
  rw [hval] at hcs
  have hmain := main_path (steady 1024) long_options (by decide) rfl 1048596
  rw [hcs] at hmain
  have h1 : (main (steady 1024) long_options 1048596).status = .exited EXIT_SUCCESS := by
    rw [hmain]
  have h2 : (main (steady 1024) long_options 1048596).frames = 1073760256 := by
    rw [hmain]
  have h3 : (main (steady 1024) long_options 1048596).header
      = finish_header (build_header 2 48000 .PCM_FORMAT_S16_LE) 1073760256 := by
    rw [hmain]; rfl
  have h4 : (finish_header (build_header 2 48000 .PCM_FORMAT_S16_LE) 1073760256).block_align = 4 := by
    decide
  have h5 : (finish_header (build_header 2 48000 .PCM_FORMAT_S16_LE) 1073760256).data_sz
      = 73728 := by
    decide
  refine ⟨h1, h2, by rw [h3, h4], by rw [h3, h5], ?_⟩
  rw [h3, h5, h4, h2]
  decide

/-! ## Reading the header back -/

theorem rd32_value (x : Nat) (hx : x < 4294967296) :
    x % 256 + 256 * (x / 256 % 256) + 65536 * (x / 65536 % 256)
      + 16777216 * (x / 16777216 % 256) = x := by
  omega

theorem rd16_value (x : Nat) (hx : x < 65536) : x % 256 + 256 * (x / 256 % 256) = x := by
  omega

theorem byte_at_zero (a : Nat) (l : List Nat) : byte_at (a :: l) 0 = a := rfl

theorem byte_at_succ (a : Nat) (l : List Nat) (n : Nat) :
    byte_at (a :: l) (n + 1) = byte_at l n := rfl

/-- A reader of the 44-byte layout gets back every field of a header whose
fields fit their slots, whatever follows the header. -/
theorem decode_encode (h : wav_header) (d : List Nat) (hfit : fits h) :
    decode_header (encode_header h ++ d) = h := by
  obtain ⟨a1, a2, a3, a4, a5, a6, a7, a8, a9, a10, a11, a12, a13⟩ := h
  obtain ⟨h1, h2, h3, h4, h5, h6, h7, h8, h9, h10, h11, h12, h13⟩ := hfit
  simp only [] at h1 h2 h3 h4 h5 h6 h7 h8 h9 h10 h11 h12 h13
  simp only [encode_header, le32, le16, List.cons_append, List.nil_append, List.append_assoc,
    decode_header, rd32, rd16]
  simp only [byte_at_succ, byte_at_zero]
  simp only [wav_header.mk.injEq]
  exact ⟨rd32_value a1 h1, rd32_value a2 h2, rd32_value a3 h3, rd32_value a4 h4,
    rd32_value a5 h5, rd16_value a6 h6, rd16_value a7 h7, rd32_value a8 h8, rd32_value a9 h9,
    rd16_value a10 h10, rd16_value a11 h11, rd32_value a12 h12, rd32_value a13 h13⟩

theorem tags_of_encode (h : wav_header) (d : List Nat) :
    tag_at (encode_header h ++ d) 0 = le32 h.riff_id
    ∧ tag_at (encode_header h ++ d) 8 = le32 h.riff_fmt
    ∧ tag_at (encode_header h ++ d) 12 = le32 h.fmt_id
    ∧ tag_at (encode_header h ++ d) 36 = le32 h.data_id := by
  simp only [tag_at, encode_header, le32, le16, List.cons_append, List.nil_append,
    List.append_assoc]
  simp only [byte_at_succ, byte_at_zero, Nat.reduceAdd, and_self]

theorem finished_header_fits (channels rate frames : Nat) :
    fits (finish_header (build_header channels rate .PCM_FORMAT_S16_LE) frames) := by
  unfold fits finish_header build_header start_header blank_header
  simp only []
  refine ⟨by decide, u32_lt _, by decide, by decide, by decide, by decide, u16_lt _, u32_lt _,
    u32_lt _, u16_lt _, u16_lt _, by decide, u32_lt _⟩

/-! ## Completed captures on a real file -/

/-- The run of `main` on a real file when `capture_sample` returns `v` after the
events of `k` loop iterations. -/
theorem main_path_returned (env : Env) (o : Options) (fuel : Nat) (hname : o.filename ≠ "--")
    (hf : env.fopen_ok = true) (v k : Nat) (pre tail : List Event)
    (hcs : capture_sample env Target.path true o.card o.device (u16 o.channels) (u32 o.rate)
        .PCM_FORMAT_S16_LE o.period_size o.period_count o.capture_time fuel
      = (.returned v,
         pre ++ loop_events env Target.path
           (pcm_frames_to_bytes (u16 o.channels) .PCM_FORMAT_S16_LE 1) k ++ tail))
    (hpre : pre.all off_file = true) (htail : tail.all off_file = true) :
    (main env o fuel).status = .exited EXIT_SUCCESS
    ∧ (main env o fuel).frames = v
    ∧ (main env o fuel).header
        = finish_header (build_header o.channels o.rate .PCM_FORMAT_S16_LE) v
    ∧ (main env o fuel).trace
        = [Event.fseek Target.path sizeof_wav_header, Event.signal]
          ++ (pre ++ loop_events env Target.path
                (pcm_frames_to_bytes (u16 o.channels) .PCM_FORMAT_S16_LE 1) k ++ tail)
          ++ [Event.printf (msg_captured v)]
          ++ [Event.fseek Target.path 0,
              Event.fwrite_header Target.path (encode_header
                (finish_header (build_header o.channels o.rate .PCM_FORMAT_S16_LE) v)),
              Event.fclose Target.path]
    ∧ file_image (main env o fuel).trace
        = encode_header (finish_header (build_header o.channels o.rate .PCM_FORMAT_S16_LE) v)
          ++ loop_data env (pcm_frames_to_bytes (u16 o.channels) .PCM_FORMAT_S16_LE 1) k := by
  have hmain := main_path env o hname hf fuel
  rw [hcs] at hmain
  rw [hmain]
  exact ⟨rfl, rfl, rfl, rfl,
    file_image_run env _ k pre tail [Event.printf (msg_captured v)] _ hpre htail rfl
      (encode_header_length _)⟩

theorem capture_begin_off_file (env : Env) (prinfo : Bool) (card device channels rate : Nat)
    (format : pcm_format) (period_size period_count : Nat) :
    (capture_begin env prinfo card device channels rate format period_size period_count).all
      off_file = true := by
  cases prinfo <;> rfl

theorem finished_block_align (channels rate frames : Nat) (h : channels < 32768) :
    (finish_header (build_header channels rate .PCM_FORMAT_S16_LE) frames).block_align
      = channels * 2 := by
  show u16 (u32 (channels * (u16 16 / 8))) = channels * 2
  have e : u16 16 / 8 = 2 := by decide
  rw [e, u32_of_lt (by omega), u16_of_lt (by omega)]

theorem finished_data_sz (channels rate frames : Nat) :
    (finish_header (build_header channels rate .PCM_FORMAT_S16_LE) frames).data_sz
      = u32 (frames * (finish_header (build_header channels rate .PCM_FORMAT_S16_LE)
          frames).block_align) := rfl

/-- The header size field against the exact byte count, when the byte count fits
32 bits. -/
theorem data_sz_exact (env : Env) (n c : Nat) (h : sum_frames env n * (c * 2) < 4294967296) :
    u32 (total_after env n * (c * 2)) = sum_frames env n * (c * 2) := by
  rcases Nat.eq_zero_or_pos c with hc | hc
  · subst hc; simp [u32]
  · have hs : sum_frames env n < 4294967296 := by
      have : sum_frames env n * 1 ≤ sum_frames env n * (c * 2) :=
        Nat.mul_le_mul_left _ (by omega)
      omega
    rw [total_after_eq, u32_of_lt hs, u32_of_lt h]

/-- The four chunk identifiers are the ASCII tags, read in little-endian order. -/
theorem chunk_tags :
    le32 ID_RIFF = ascii "RIFF" ∧ le32 ID_WAVE = ascii "WAVE" ∧ le32 ID_FMT = ascii "fmt "
    ∧ le32 ID_DATA = ascii "data" := by
  decide

/-- C5 (as amended).  Round trip, for a channel count below 32768, a rate between 1
and 2^32 - 1, and a capture on a real file that the time limit ends in
iteration `k` with no SIGINT and no short write, whose PCM byte count
`sum of frames_read * channels * 2` is below 2^32: the file starts with the
tags "RIFF" (offset 0), "WAVE" (8), "fmt " (12) and "data" (36); a reader of
the 44-byte layout finds fmt size 16, audio format 1, the configured channel
count and rate and 16 bits per sample; what follows the header is the PCM
data of the `k + 1` iterations, and the decoded `data_sz` is its length. -/
theorem wav_round_trip (env : Env) (o : Options) (k fuel : Nat)
    (hname : o.filename ≠ "--") (hf : env.fopen_ok = true)
    (ho : env.pcm_open_ok = true) (hy : env.pcm_is_ready = true) (hm : env.malloc_ok = true)
    (hr1 : 1 ≤ o.rate) (hr : o.rate < 4294967296) (hch : o.channels < 32768)
    (hc : ∀ j, j < k → continues env o.rate o.capture_time (o.channels * 2) j = true)
    (hs : env.sigint k = false)
    (hw : write_ok env (o.channels * 2) k = true)
    (ht : time_up env o.rate o.capture_time k = true)
    (hsize : sum_frames env (k + 1) * (o.channels * 2) < 4294967296)
    (hfuel : k + 2 ≤ fuel) :
    (main env o fuel).status = .exited EXIT_SUCCESS
    ∧ tag_at (file_image (main env o fuel).trace) 0 = ascii "RIFF"
    ∧ tag_at (file_image (main env o fuel).trace) 8 = ascii "WAVE"
    ∧ tag_at (file_image (main env o fuel).trace) 12 = ascii "fmt "
    ∧ tag_at (file_image (main env o fuel).trace) 36 = ascii "data"
    ∧ (decode_header (file_image (main env o fuel).trace)).fmt_sz = 16
    ∧ (decode_header (file_image (main env o fuel).trace)).audio_format = 1
    ∧ (decode_header (file_image (main env o fuel).trace)).num_channels = o.channels
    ∧ (decode_header (file_image (main env o fuel).trace)).sample_rate = o.rate
    ∧ (decode_header (file_image (main env o fuel).trace)).bits_per_sample = 16
    ∧ (file_image (main env o fuel).trace).drop 44 = loop_data env (o.channels * 2) (k + 1)
    ∧ ((file_image (main env o fuel).trace).drop 44).length
        = sum_frames env (k + 1) * (o.channels * 2)
    ∧ (decode_header (file_image (main env o fuel).trace)).data_sz
        = ((file_image (main env o fuel).trace).drop 44).length := by
  have hbpf := bytes_per_frame_eq o.channels (by omega)
  have hrate := u32_of_lt hr
  have hcs := capture_sample_timed env Target.path true o.card o.device (u16 o.channels)
    (u32 o.rate) .PCM_FORMAT_S16_LE o.period_size o.period_count o.capture_time ho hy hm
    (by rw [hrate]; omega) k (by rw [hbpf, hrate]; exact hc) hs (by rw [hbpf]; exact hw)
    (by rw [hrate]; exact ht) fuel hfuel
  obtain ⟨m1, -, -, -, m5⟩ := main_path_returned env o fuel hname hf _ (k + 1) _ _ hcs
    (capture_begin_off_file _ _ _ _ _ _ _ _ _) rfl
  rw [hbpf] at m5
  have hdec := decode_encode _ (loop_data env (o.channels * 2) (k + 1))
    (finished_header_fits o.channels o.rate (total_after env (k + 1)))
  obtain ⟨t1, t2, t3, t4⟩ := tags_of_encode
    (finish_header (build_header o.channels o.rate .PCM_FORMAT_S16_LE) (total_after env (k + 1)))
    (loop_data env (o.channels * 2) (k + 1))
  have hdrop : (file_image (main env o fuel).trace).drop 44
      = loop_data env (o.channels * 2) (k + 1) := by
    rw [m5]; exact List.drop_left' (encode_header_length _)
  have hlen : (loop_data env (o.channels * 2) (k + 1)).length
      = sum_frames env (k + 1) * (o.channels * 2) := by
    rw [loop_data_length, sum_written_eq env _ (k + 1)]
    intro j hj
    rcases Nat.lt_or_ge j k with h | h
    · exact ((continues_iff env _ _ _ j).1 (hc j h)).2.2
    · have e : j = k := by omega
      rw [e]; exact hw
  rw [m5, hdec] at *
  obtain ⟨g1, g2, g3, g4⟩ := chunk_tags
  refine ⟨m1, t1.trans g1, t2.trans g2, t3.trans g3, t4.trans g4, rfl, rfl, ?_, ?_, rfl, hdrop,
    ?_, ?_⟩
  · exact u16_of_lt (by omega)
  · exact hrate
  · rw [hdrop, hlen]
  · rw [hdrop, hlen, finished_data_sz, finished_block_align _ _ _ hch]
    exact data_sz_exact env (k + 1) o.channels hsize

/-- C5 (witness).  `tinycap -t 0 out.wav` on the steady device of 2 frames a
read: the first read reaches the limit, 8 PCM bytes follow the header, and the
decoded `data_sz` is their count. -/
theorem wav_round_trip_witness :
    time_up (steady 2) short_options.rate short_options.capture_time 0 = true
    ∧ sum_frames (steady 2) 1 * (short_options.channels * 2) < 4294967296
    ∧ (decode_header (file_image (main (steady 2) short_options 2).trace)).data_sz
        = ((file_image (main (steady 2) short_options 2).trace).drop 44).length :=
  ⟨by decide, by decide,
   (wav_round_trip (steady 2) short_options 0 2 (by decide) rfl rfl rfl rfl (by decide)
      (by decide) (by decide) (by decide) rfl (by decide) (by decide) (by decide)
      (by decide)).2.2.2.2.2.2.2.2.2.2.2.2⟩

/-- C5 (counterexample).  `tinycap -c 65537 -t 0 out.wav` on the steady device of
1 frame a read: the capture ends by the time limit after one read with a
complete write, and the header of the file decodes to 1 channel, not to the
configured 65537. -/
theorem round_trip_channels_fail :
    (main (steady 1) wide_options 2).status = .exited EXIT_SUCCESS
    ∧ time_up (steady 1) wide_options.rate wide_options.capture_time 0 = true
    ∧ write_ok (steady 1) (pcm_frames_to_bytes (u16 wide_options.channels) .PCM_FORMAT_S16_LE 1) 0
        = true
    ∧ (decode_header (file_image (main (steady 1) wide_options 2).trace)).num_channels = 1
    ∧ (decode_header (file_image (main (steady 1) wide_options 2).trace)).num_channels
        ≠ wide_options.channels := by
  decide

theorem counts_capture_begin (env : Env) (prinfo : Bool) (card device channels rate : Nat)
    (format : pcm_format) (period_size period_count : Nat) :
    read_calls (capture_begin env prinfo card device channels rate format period_size
        period_count) = 0
    ∧ frame_write_calls (capture_begin env prinfo card device channels rate format period_size
        period_count) = 0 := by
  cases prinfo <;> exact ⟨rfl, rfl⟩

theorem read_calls_append (a b : List Event) :
    read_calls (a ++ b) = read_calls a + read_calls b := by
  simp [read_calls, List.countP_append]

theorem frame_write_calls_append (a b : List Event) :
    frame_write_calls (a ++ b) = frame_write_calls a + frame_write_calls b := by
  simp [frame_write_calls, List.countP_append]

/-- A complete write is taken whole: `frames_read * bytes_per_frame` bytes. -/
theorem taken_of_write_ok (io : Buffering) (env : Env) (bpf k : Nat)
    (h : write_ok env bpf k = true) : taken io env bpf k = frames_read env k * bpf := by
  unfold write_ok at h
  rw [decide_eq_true_iff] at h
  unfold taken
  rw [h, if_neg (Nat.lt_irrefl _), Nat.add_zero]

theorem sum_taken_of_write_ok (io : Buffering) (env : Env) (bpf k : Nat)
    (h : ∀ j, j < k → write_ok env bpf j = true) :
    sum_taken io env bpf k = sum_frames env k * bpf := by
  induction k with
  | zero => simp [sum_taken, sum_frames]
  | succ k ih =>
    simp only [sum_taken, sum_frames, ih (fun j hj => h j (Nat.lt_succ_of_lt hj)),
      taken_of_write_ok io env bpf k (h k (Nat.lt_succ_self k)), Nat.add_mul]

/-- A short write is taken in part only: fewer bytes than `frames_read` frames. -/
theorem taken_lt_of_short (io : Buffering) (env : Env) (bpf k : Nat) (hb : 1 ≤ bpf)
    (h : written_count env bpf k < frames_read env k) :
    taken io env bpf k < frames_read env k * bpf := by
  unfold taken
  rw [if_pos h]
  have h1 : (written_count env bpf k + 1) * bpf ≤ frames_read env k * bpf :=
    Nat.mul_le_mul_right _ h
  rw [Nat.add_mul, Nat.one_mul] at h1
  have h2 : min (io.part k) (bpf - 1) ≤ bpf - 1 := Nat.min_le_right _ _
  omega

/-- C10 (as amended).  On a real file, when the first `k` iterations continue and
the write of iteration `k` is short, `capture_sample` stops at once: the run
has exactly `k + 1` reads and `k + 1` loop writes, and after them come only
the diagnostic, `free`, `pcm_close`, the message with the frame count, the
`fseek` to 0, the write of the header and `fclose`; `main` exits with code 0.
The header is made from the frames read, those of iteration `k` included:
`data_sz = total_frames_read * block_align` modulo 2^32.  For a channel count
below 32768 and a byte count below 2^32 this is `channels * 2` bytes for every
frame that `fwrite` reported as written plus `channels * 2` bytes for each of
the `frames_read - written` frames of the short write; and, with at least one
channel, it is more than the number of PCM bytes in the file, whatever part
of a further frame the stream took and however many of the bytes it took
reached the file. -/
theorem short_write_header (io : Buffering) (env : Env) (o : Options) (k fuel : Nat)
    (hname : o.filename ≠ "--") (hf : env.fopen_ok = true)
    (ho : env.pcm_open_ok = true) (hy : env.pcm_is_ready = true) (hm : env.malloc_ok = true)
    (hr : u32 o.rate ≠ 0)
    (hc : ∀ j, j < k → continues env (u32 o.rate) o.capture_time
      (pcm_frames_to_bytes (u16 o.channels) .PCM_FORMAT_S16_LE 1) j = true)
    (hs : env.sigint k = false)
    (hw : write_ok env (pcm_frames_to_bytes (u16 o.channels) .PCM_FORMAT_S16_LE 1) k = false)
    (hfuel : k + 1 ≤ fuel) :
    (main env o fuel).status = .exited EXIT_SUCCESS
    ∧ (main env o fuel).frames = total_after env (k + 1)
    ∧ read_calls (main env o fuel).trace = k + 1
    ∧ frame_write_calls (main env o fuel).trace = k + 1
    ∧ (∃ before, (main env o fuel).trace
          = before
            ++ [Event.fprintf_stderr Diag.error_capturing, Event.free, Event.pcm_close,
                Event.printf (msg_captured (total_after env (k + 1))),
                Event.fseek Target.path 0,
                Event.fwrite_header Target.path (encode_header (main env o fuel).header),
                Event.fclose Target.path]
        ∧ read_calls before = k + 1 ∧ frame_write_calls before = k + 1)
    ∧ written_count env (pcm_frames_to_bytes (u16 o.channels) .PCM_FORMAT_S16_LE 1) k
        < frames_read env k
    ∧ (main env o fuel).header.data_sz
        = (total_after env (k + 1) * (main env o fuel).header.block_align) % 4294967296
    ∧ (o.channels < 32768 → sum_frames env (k + 1) * (o.channels * 2) < 4294967296 →
        (main env o fuel).header.data_sz
          = (sum_written env (pcm_frames_to_bytes (u16 o.channels) .PCM_FORMAT_S16_LE 1) (k + 1)
              + (frames_read env k
                  - written_count env
                      (pcm_frames_to_bytes (u16 o.channels) .PCM_FORMAT_S16_LE 1) k))
            * (o.channels * 2))
    ∧ (1 ≤ o.channels → o.channels < 32768 →
        sum_frames env (k + 1) * (o.channels * 2) < 4294967296 →
        pcm_stored io env (pcm_frames_to_bytes (u16 o.channels) .PCM_FORMAT_S16_LE 1) (k + 1)
          < (main env o fuel).header.data_sz) := by
  have hcs := capture_sample_short env Target.path true o.card o.device (u16 o.channels)
    (u32 o.rate) .PCM_FORMAT_S16_LE o.period_size o.period_count o.capture_time ho hy hm hr k
    hc hs hw fuel hfuel
  rw [List.append_assoc] at hcs
  obtain ⟨m1, m2, m3, m4, -⟩ := main_path_returned env o fuel hname hf _ (k + 1) _ _ hcs
    (capture_begin_off_file _ _ _ _ _ _ _ _ _) rfl
  have hwok : ∀ j, j < k →
      write_ok env (pcm_frames_to_bytes (u16 o.channels) .PCM_FORMAT_S16_LE 1) j = true :=
    fun j hj => ((continues_iff env _ _ _ j).1 (hc j hj)).2.2
  have hlt : written_count env (pcm_frames_to_bytes (u16 o.channels) .PCM_FORMAT_S16_LE 1) k
      < frames_read env k := by
    have h1 := written_count_le env (pcm_frames_to_bytes (u16 o.channels) .PCM_FORMAT_S16_LE 1) k
    unfold write_ok at hw
    rw [decide_eq_false_iff_not] at hw
    omega
  obtain ⟨b1, b2⟩ := counts_capture_begin env true o.card o.device (u16 o.channels) (u32 o.rate)
    .PCM_FORMAT_S16_LE o.period_size o.period_count
  obtain ⟨c1, c2, -⟩ := loop_events_counts env Target.path Target.path
    (pcm_frames_to_bytes (u16 o.channels) .PCM_FORMAT_S16_LE 1) (k + 1)
  have hsplit : (main env o fuel).trace
      = ([Event.fseek Target.path sizeof_wav_header, Event.signal]
          ++ capture_begin env true o.card o.device (u16 o.channels) (u32 o.rate)
              .PCM_FORMAT_S16_LE o.period_size o.period_count
          ++ loop_events env Target.path
              (pcm_frames_to_bytes (u16 o.channels) .PCM_FORMAT_S16_LE 1) (k + 1))
        ++ [Event.fprintf_stderr Diag.error_capturing, Event.free, Event.pcm_close,
            Event.printf (msg_captured (total_after env (k + 1))),
            Event.fseek Target.path 0,
            Event.fwrite_header Target.path (encode_header (main env o fuel).header),
            Event.fclose Target.path] := by
    rw [m4, m3]
    simp only [List.append_assoc, List.cons_append, List.nil_append]
  have hr1 : read_calls ([Event.fseek Target.path sizeof_wav_header, Event.signal]
          ++ capture_begin env true o.card o.device (u16 o.channels) (u32 o.rate)
              .PCM_FORMAT_S16_LE o.period_size o.period_count
          ++ loop_events env Target.path
              (pcm_frames_to_bytes (u16 o.channels) .PCM_FORMAT_S16_LE 1) (k + 1)) = k + 1 := by
    rw [read_calls_append, read_calls_append, b1, c2]
    show 0 + 0 + (k + 1) = k + 1
    omega
  have hw1 : frame_write_calls ([Event.fseek Target.path sizeof_wav_header, Event.signal]
          ++ capture_begin env true o.card o.device (u16 o.channels) (u32 o.rate)
              .PCM_FORMAT_S16_LE o.period_size o.period_count
          ++ loop_events env Target.path
              (pcm_frames_to_bytes (u16 o.channels) .PCM_FORMAT_S16_LE 1) (k + 1)) = k + 1 := by
    rw [frame_write_calls_append, frame_write_calls_append, b2, c1]
    show 0 + 0 + (k + 1) = k + 1
    omega
  have hdata : o.channels < 32768 → sum_frames env (k + 1) * (o.channels * 2) < 4294967296 →
      (main env o fuel).header.data_sz = sum_frames env (k + 1) * (o.channels * 2) := by
    intro hch hsize
    rw [m3, finished_data_sz, finished_block_align _ _ _ hch]
    exact data_sz_exact env (k + 1) o.channels hsize
  refine ⟨m1, m2, ?_, ?_, ⟨_, hsplit, hr1, hw1⟩, hlt, ?_, ?_, ?_⟩
  · rw [hsplit, read_calls_append, hr1]; rfl
  · rw [hsplit, frame_write_calls_append, hw1]; rfl
  · rw [m3]; rfl
  · intro hch hsize
    rw [hdata hch hsize]
    simp only [sum_written, sum_frames]
    rw [sum_written_eq env _ k hwok]
    congr 1
    omega
  · intro h1 hch hsize
    rw [hdata hch hsize]
    have hb := bytes_per_frame_eq o.channels (by omega)
    have hst : sum_taken io env (pcm_frames_to_bytes (u16 o.channels) .PCM_FORMAT_S16_LE 1)
        (k + 1) < sum_frames env (k + 1) * (o.channels * 2) := by
      have e1 := sum_taken_of_write_ok io env _ k hwok
      have e2 := taken_lt_of_short io env
        (pcm_frames_to_bytes (u16 o.channels) .PCM_FORMAT_S16_LE 1) k (by omega) hlt
      simp only [sum_taken, sum_frames, e1, Nat.add_mul]
      rw [hb] at e2 ⊢
      omega
    have hmin : pcm_stored io env (pcm_frames_to_bytes (u16 o.channels) .PCM_FORMAT_S16_LE 1)
        (k + 1) ≤ sum_taken io env (pcm_frames_to_bytes (u16 o.channels) .PCM_FORMAT_S16_LE 1)
        (k + 1) := Nat.min_le_right _ _
    omega

/-- C10 (witness).  `tinycap out.wav` on the steady device of 1024 frames a read,
with an output whose first `fwrite` takes 14 frames and 2 more bytes: the
write is short, and fewer PCM bytes are in the file than `data_sz` says. -/
theorem short_write_header_witness :
    write_ok short_disk
        (pcm_frames_to_bytes (u16 (default_options "out.wav").channels) .PCM_FORMAT_S16_LE 1) 0
      = false
    ∧ pcm_stored two_spare_bytes short_disk
        (pcm_frames_to_bytes (u16 (default_options "out.wav").channels) .PCM_FORMAT_S16_LE 1) 1
      < (main short_disk (default_options "out.wav") 1).header.data_sz :=
  ⟨by decide,
   (short_write_header two_spare_bytes short_disk (default_options "out.wav") 0 1 (by decide)
      rfl rfl rfl rfl (by decide) (by decide) rfl (by decide) (by decide)).2.2.2.2.2.2.2.2
      (by decide) (by decide) (by decide)⟩

/-- C10 (counterexample).  `tinycap out.wav` on the steady device of 1024 frames a
read, when the first `fwrite` reports 14 of the 1024 frames, the stream has
taken 2 bytes more and 58 bytes are in the file after the header: the loop
stops, `main` exits with code 0, and the header says `data_sz = 4096`.  And on
a device that delivers 1024 frames and then 1 frame, when the first write is
reported whole, the second takes nothing and 56 bytes are in the file: the
header says `data_sz = 4100`. -/
theorem short_write_data_sz_differs :
    (written_count short_disk 4 0 = 14 ∧ frames_read short_disk 0 = 1024
      ∧ (main short_disk (default_options "out.wav") 1).status = .exited EXIT_SUCCESS
      ∧ (main short_disk (default_options "out.wav") 1).header.data_sz = 4096
      ∧ pcm_stored two_spare_bytes short_disk 4 1 = 58
      ∧ (main short_disk (default_options "out.wav") 1).header.data_sz
          ≠ pcm_stored two_spare_bytes short_disk 4 1)
    ∧ (written_count late_failure 4 0 = 1024 ∧ written_count late_failure 4 1 = 0
      ∧ frames_read late_failure 1 = 1
      ∧ (main late_failure (default_options "out.wav") 2).status = .exited EXIT_SUCCESS
      ∧ (main late_failure (default_options "out.wav") 2).header.data_sz = 4100
      ∧ pcm_stored lost_buffer late_failure 4 2 = 56
      ∧ (main late_failure (default_options "out.wav") 2).header.data_sz
          ≠ pcm_stored lost_buffer late_failure 4 2) := by
  decide

end Tinycap
